import Mathlib

/-!
Field pairing, credential capture and autofill of `password_manager.js`.

A shallow embedding of `src/password_manager.js`.

The page's DOM is modelled as a heap of input elements addressed by reference
(`Ref`), because the script holds on to element references (the `fields`
object closed over by a submit listener, the fields written by `autofill`)
and reads or writes the element behind the reference later on.

* `form.querySelectorAll('input')` is the list `Form.inputs` of references, in
  document order; the controls of a form are these inputs, each owned by the
  form it lies in.
* `document.querySelectorAll('form')` is the list `Document.forms`.
* `input.type`, `input.name`, `input.id` and `input.value` are the four
  string fields of `InputElement`; each of them is always a string in the DOM.
* Strings are Lean strings. `toLowerCase` lowers the letters `A`..`Z`; the
  three needles searched for are ASCII.
* A form exposes its controls as properties under their name and id, and
  such a property hides a method of the same name: with a control called
  `querySelectorAll` (or `addEventListener`), `form.querySelectorAll(...)`
  (or `form.addEventListener(...)`) calls an element and throws a
  `TypeError`. The document does the same with the names in `Document.names`.
  The script has no `try`, so such an exception ends the call it arises in.
* An assignment to `input.value` stores the string after the value
  sanitization of the input's type: line breaks are removed, and for an
  email input leading and trailing whitespace as well.
* The listeners registered by the capture logic are kept as a list, one entry
  per `addEventListener` call; a `submit` event on a form runs the entries of
  that form. `document.querySelectorAll('form')` lists every form once, which
  the statements about listeners assume as `Nodup` of the form references.
* The host side of `window.bridge` is outside the script: a bridge is either
  missing or a function telling whether a call returns or throws. A call has
  no effect on the page.
-/

namespace PasswordManager

/-- Reference to a DOM element (object identity). -/
abbrev Ref := Nat

/-- The attributes of an `input` element that the script reads or writes. -/
structure InputElement where
  type : String
  name : String
  id : String
  value : String
deriving DecidableEq

/-- A `form` element: its own identity and the references of the `input`
elements below it, in document order. -/
structure Form where
  ref : Ref
  inputs : List Ref
deriving DecidableEq

/-- The document: its forms in document order, the element heap, and the
names under which `document` exposes an element as a property (the `name` of
a form, image, embed, iframe or object). -/
structure Document where
  forms : List Form
  elem : Ref → InputElement
  names : List String := []

/-- The object `{ usernameField, passwordField }` returned by the scanner:
two element references. -/
structure FieldPair where
  usernameField : Ref
  passwordField : Ref
deriving DecidableEq

/-- How an evaluation ends: with a value, or by an uncaught `TypeError`. -/
inductive Completion (α : Type) where
  | normal (value : α)
  | thrown
deriving DecidableEq

/-- `String.prototype.toLowerCase`. -/
def toLowerCase (s : String) : String := ⟨s.data.map Char.toLower⟩

/-- Does `needle` start the character list? -/
def startsWithChars : List Char → List Char → Bool
  | [], _ => true
  | _ :: _, [] => false
  | a :: as, b :: bs => a == b && startsWithChars as bs

/-- Search `needle` at every position of the character list, left to right. -/
def includesChars (needle : List Char) : List Char → Bool
  | [] => startsWithChars needle []
  | c :: cs => startsWithChars needle (c :: cs) || includesChars needle cs

/-- `String.prototype.includes`. -/
def includes (s needle : String) : Bool := includesChars needle.data s.data

/-- The two local variables of `findUsernameAndPasswordFields`. -/
structure ScanState where
  usernameField : Option Ref
  passwordField : Option Ref
deriving DecidableEq

/-- The condition of the inner `if` (lines 13-17): the lower-cased name or id
includes one of the three needles. -/
def nameOrIdMatches (input : InputElement) : Bool :=
  let name := toLowerCase input.name
  let id := toLowerCase input.id
  includes name "user" || includes id "user" ||
  includes name "email" || includes id "email" ||
  includes name "login" || includes id "login"

/-- One iteration of the `for (const input of inputs)` loop (lines 9-21). -/
def scanStep (elem : Ref → InputElement) (st : ScanState) (input : Ref) : ScanState :=
  if (elem input).type = "password" then
    { st with passwordField := some input }
  else if (elem input).type = "email" ∨ (elem input).type = "text" ∨ (elem input).type = "tel" then
    if nameOrIdMatches (elem input) then
      { st with usernameField := some input }
    else st
  else st

/-- The form has a control it exposes as the property `property`: an input,
image buttons apart, whose name or id is `property`. Reading
`form[property]` then gives that control, not a method of the form. -/
def exposesControl (elem : Ref → InputElement) (form : Form) (property : String) : Bool :=
  form.inputs.any (fun r =>
    decide ((elem r).type ≠ "image" ∧ ((elem r).name = property ∨ (elem r).id = property)))

/-- The document exposes an element as the property `property`. -/
def documentExposes (d : Document) (property : String) : Bool :=
  d.names.contains property

/-- Lines 5-6 and 8-26 of `findUsernameAndPasswordFields`: the loop over the
inputs and the result, `none` for `null`. -/
def scanInputs (elem : Ref → InputElement) (inputs : List Ref) : Option FieldPair :=
  let st := inputs.foldl (scanStep elem) { usernameField := none, passwordField := none }
  match st.passwordField, st.usernameField with
  | some passwordField, some usernameField =>
    some { usernameField := usernameField, passwordField := passwordField }
  | _, _ => none

/-- The function `findUsernameAndPasswordFields(form)` (lines 4-27). Line 7
calls `form.querySelectorAll`, which throws when the form exposes a control
under that name; otherwise the inputs are scanned. -/
def findUsernameAndPasswordFields (elem : Ref → InputElement) (form : Form) :
    Completion (Option FieldPair) :=
  if exposesControl elem form "querySelectorAll" then .thrown
  else .normal (scanInputs elem form.inputs)

/-- A line break: U+000A or U+000D. -/
def isNewline (c : Char) : Bool := c = Char.ofNat 10 || c = Char.ofNat 13

/-- ASCII whitespace: tab, line feed, form feed, carriage return, space. -/
def isAsciiWhitespace (c : Char) : Bool :=
  c = Char.ofNat 9 || c = Char.ofNat 10 || c = Char.ofNat 12 || c = Char.ofNat 13 ||
  c = Char.ofNat 32

/-- Remove every line break from the string. -/
def stripNewlines (s : String) : String := ⟨s.data.filter (fun c => !isNewline c)⟩

/-- Remove leading and trailing ASCII whitespace from the string. -/
def stripWhitespace (s : String) : String :=
  ⟨((s.data.dropWhile isAsciiWhitespace).reverse.dropWhile isAsciiWhitespace).reverse⟩

/-- The value sanitization the browser applies when a script assigns to
`input.value`, for the types `autofill` writes to: text, tel and password
inputs lose line breaks; an email input (without `multiple`) loses line
breaks, then leading and trailing whitespace. -/
def sanitizeValue (type : String) (v : String) : String :=
  if type = "email" then stripWhitespace (stripNewlines v) else stripNewlines v

/-- The assignment `field.value = v` on the element behind a reference. -/
def setValue (elem : Ref → InputElement) (r : Ref) (v : String) : Ref → InputElement :=
  fun x => if x = r then { elem r with value := sanitizeValue (elem r).type v } else elem x

/-- A heap after some statements ran, and whether they ended by an exception. -/
structure HeapRun where
  elem : Ref → InputElement
  thrown : Bool

/-- The loop `for (const form of forms)` of `window.autofill` (lines 47-54):
the first form with a pair gets both writes, then the loop breaks; a scan
that throws ends the loop, and the function, with nothing written. -/
def autofillLoop (elem : Ref → InputElement) (username password : String) :
    List Form → HeapRun
  | [] => { elem := elem, thrown := false }
  | form :: rest =>
    match findUsernameAndPasswordFields elem form with
    | .thrown => { elem := elem, thrown := true }
    | .normal (some fields) =>
      { elem := setValue (setValue elem fields.usernameField username)
          fields.passwordField password,
        thrown := false }
    | .normal none => autofillLoop elem username password rest

/-- The document after a call, and whether the call ended by an exception. -/
structure AutofillRun where
  doc : Document
  thrown : Bool

/-- The function `window.autofill(username, password)` (lines 45-55). Line 46
calls `document.querySelectorAll`, which throws when the document exposes an
element under that name. -/
def autofill (d : Document) (username password : String) : AutofillRun :=
  if documentExposes d "querySelectorAll" then { doc := d, thrown := true }
  else
    let run := autofillLoop d.elem username password d.forms
    { doc := { d with elem := run.elem }, thrown := run.thrown }

/-- A registered `submit` listener: the form it was added to and the `fields`
object its closure captured. -/
structure Listener where
  form : Ref
  fields : FieldPair
deriving DecidableEq

/-- The listeners registered by some statements, and whether the statements
ended by an exception. -/
structure AttachRun where
  listeners : List Listener
  thrown : Bool
deriving DecidableEq

/-- The loop `forEach(form => ...)` of the capture logic (lines 30-42): the
listeners it registers, in order. An exception in the callback, from the scan
of line 31 or from `form.addEventListener` of line 33 when the form exposes a
control under that name, ends the loop; the listeners registered before it
stay. -/
def attachListeners (elem : Ref → InputElement) : List Form → AttachRun
  | [] => { listeners := [], thrown := false }
  | form :: rest =>
    match findUsernameAndPasswordFields elem form with
    | .thrown => { listeners := [], thrown := true }
    | .normal none => attachListeners elem rest
    | .normal (some fields) =>
      if exposesControl elem form "addEventListener" then { listeners := [], thrown := true }
      else
        { listeners := { form := form.ref, fields := fields } :: (attachListeners elem rest).listeners,
          thrown := (attachListeners elem rest).thrown }

/-- The capture logic (lines 30-42) run on a document. Line 30 calls
`document.querySelectorAll`, which throws when the document exposes an
element under that name. -/
def captureLogic (d : Document) : AttachRun :=
  if documentExposes d "querySelectorAll" then { listeners := [], thrown := true }
  else attachListeners d.elem d.forms

/-- What the channel callback (lines 2-55) leaves behind: the listeners it
registered, and whether it got as far as line 45, which defines
`window.autofill`. -/
structure PageScript where
  listeners : List Listener
  autofillDefined : Bool
deriving DecidableEq

/-- The channel callback run on the document as it is when the channel is
ready: the capture logic, then, unless that threw, the definition of
`window.autofill`. -/
def channelCallback (d : Document) : PageScript :=
  { listeners := (captureLogic d).listeners, autofillDefined := !(captureLogic d).thrown }

/-- The host calls `autofill(username, password)` on the page: the function
of line 45 when it was defined, an exception otherwise. -/
def callAutofill (page : PageScript) (d : Document) (username password : String) :
    AutofillRun :=
  if page.autofillDefined then autofill d username password else { doc := d, thrown := true }

/-- The body of the submit listener (lines 34-39), run on the heap as it is
when the event fires: the arguments of the `capture_credentials` call it
makes, or `none` when it makes no call. -/
def submitListener (fields : FieldPair) (elem : Ref → InputElement) : Option (String × String) :=
  let username := (elem fields.usernameField).value
  let password := (elem fields.passwordField).value
  if username ≠ "" ∧ password ≠ "" then some (username, password) else none

/-- A `submit` event on the form with reference `form`: every listener
registered on that form runs, in registration order; the result is the list
of `capture_credentials` calls made. -/
def dispatchSubmit (listeners : List Listener) (form : Ref) (elem : Ref → InputElement) :
    List (String × String) :=
  (listeners.filter (fun l => l.form = form)).filterMap (fun l => submitListener l.fields elem)

/-- The number of submit listeners registered on the form with reference
`form`. -/
def observersOn (listeners : List Listener) (form : Ref) : Nat :=
  (listeners.filter (fun l => l.form = form)).length

/-- The value of `window.bridge` when a listener runs: `none` when there is no
usable bridge object (the member access throws), otherwise how its
`capture_credentials` behaves on given arguments: `true` when the call
returns, `false` when it throws. -/
abbrev Bridge := Option (String → String → Bool)

/-- How one run of the submit listener ends: the `capture_credentials` calls
that reached the bridge, and whether the run ended by an uncaught exception. -/
structure ListenerOutcome where
  calls : List (String × String)
  fault : Bool
deriving DecidableEq

/-- The submit listener (lines 33-40) run against a bridge. The listener has
no `try` and no loop: when the condition of line 36 holds, line 38 is
evaluated once and whatever it throws ends the listener. -/
def runSubmitListener (bridge : Bridge) (fields : FieldPair) (elem : Ref → InputElement) :
    ListenerOutcome :=
  match submitListener fields elem with
  | none => { calls := [], fault := false }
  | some (username, password) =>
    match bridge with
    | none => { calls := [], fault := true }
    | some capture_credentials =>
      { calls := [(username, password)], fault := !capture_credentials username password }

/-- What the dispatch of one `submit` event carries along: the element heap,
the event's canceled flag (set by `preventDefault()`, it suppresses the
default submit action), the `capture_credentials` calls that reached the
bridge, and the number of listeners that ended by an uncaught exception. -/
structure SubmitEvent where
  elem : Ref → InputElement
  defaultPrevented : Bool
  calls : List (String × String)
  faults : Nat

/-- One listener invoked during the dispatch. The listener takes no event
argument and assigns to no element; an exception it throws is reported and
the dispatch goes on. -/
def listenerStep (bridge : Bridge) (ev : SubmitEvent) (l : Listener) : SubmitEvent :=
  let out := runSubmitListener bridge l.fields ev.elem
  { ev with calls := ev.calls ++ out.calls, faults := ev.faults + (if out.fault then 1 else 0) }

/-- The dispatch of a `submit` event on the form with reference `form`: the
listeners registered on it run in registration order on a fresh event. -/
def dispatchSubmitEvent (bridge : Bridge) (listeners : List Listener) (form : Ref)
    (elem : Ref → InputElement) : SubmitEvent :=
  (listeners.filter (fun l => l.form = form)).foldl (listenerStep bridge)
    { elem := elem, defaultPrevented := false, calls := [], faults := 0 }

/-- An observer that scans the form again when the `submit` event fires and
forwards the values of the pair it finds then. This is the observer the
lifecycle paragraph of the specification describes (no pair kept from one
operation to the next); it is not in the source and serves for comparison. -/
def rescanningListener (form : Form) (elem : Ref → InputElement) : Option (String × String) :=
  match findUsernameAndPasswordFields elem form with
  | .normal (some fields) => submitListener fields elem
  | _ => none

/-! Section: Sample documents -/

/-- A heap built from a list: reference `i` is the `i`-th element, anything
beyond is an attribute-less text input. -/
def heapOf (es : List InputElement) : Ref → InputElement :=
  fun r => es.getD r { type := "text", name := "", id := "", value := "" }

/-- A page whose only form has a username input but no password input yet. -/
def pageAtLoad : Document :=
  { forms := [⟨10, [0]⟩],
    elem := heapOf [⟨"text", "username", "", ""⟩, ⟨"password", "pw", "", ""⟩] }

/-- The same page after a password input was added to the form. -/
def pageLater : Document :=
  { forms := [⟨10, [0, 1]⟩],
    elem := heapOf [⟨"text", "username", "", ""⟩, ⟨"password", "pw", "", ""⟩] }

/-- A page with two login forms; the second one is already filled in. -/
def twoLoginForms : Document :=
  { forms := [⟨10, [0, 1]⟩, ⟨11, [2, 3]⟩],
    elem := heapOf [⟨"text", "username", "", ""⟩, ⟨"password", "pw", "", ""⟩,
      ⟨"email", "", "email", "bob@example.org"⟩, ⟨"password", "pw", "", "hunter2"⟩] }

/-- A page with one login form, nothing typed yet. -/
def loginPage : Document :=
  { forms := [⟨10, [0, 1]⟩],
    elem := heapOf [⟨"text", "username", "", ""⟩, ⟨"password", "pw", "", ""⟩] }

/-- The heap of `loginPage` once the user typed "alice" and "secret". -/
def typedBoth : Ref → InputElement :=
  heapOf [⟨"text", "username", "", "alice"⟩, ⟨"password", "pw", "", "secret"⟩]

/-- The heap of `loginPage` once the user typed "alice" and no password. -/
def typedNameOnly : Ref → InputElement :=
  heapOf [⟨"text", "username", "", "alice"⟩, ⟨"password", "pw", "", ""⟩]

/-- A page without any form. -/
def emptyPage : Document :=
  { forms := [], elem := heapOf [] }

/-- The form of `loginPage` after a second password input was appended to it. -/
def loginFormAppended : Form := ⟨10, [0, 1, 2]⟩

/-- The heap once a second password input was appended to the form of
`loginPage`, and the user typed "alice" and, into the new input, "secret". -/
def typedIntoAppended : Ref → InputElement :=
  heapOf [⟨"text", "username", "", "alice"⟩, ⟨"password", "pw", "", ""⟩,
    ⟨"password", "pw2", "", "secret"⟩]

/-- A username input, a password input and a hidden input whose name is
`querySelectorAll`. -/
def withHiddenQuery : Ref → InputElement :=
  heapOf [⟨"text", "username", "", ""⟩, ⟨"password", "pw", "", ""⟩,
    ⟨"hidden", "querySelectorAll", "", ""⟩]

/-- A page whose only form holds nothing but a hidden input named
`querySelectorAll`. -/
def queryOnlyPage : Document :=
  { forms := [⟨10, [0]⟩],
    elem := heapOf [⟨"hidden", "querySelectorAll", "", ""⟩] }

/-- A page with two login forms, the first of which also holds a hidden
input named `addEventListener`. -/
def listenerShadowPage : Document :=
  { forms := [⟨10, [0, 1, 2]⟩, ⟨11, [3, 4]⟩],
    elem := heapOf [⟨"text", "username", "", ""⟩, ⟨"password", "pw", "", ""⟩,
      ⟨"hidden", "addEventListener", "", ""⟩,
      ⟨"email", "", "email", ""⟩, ⟨"password", "pw", "", ""⟩] }

/-- A page with a form that holds a hidden input named `querySelectorAll`,
followed by a login form. -/
def queryThenLoginPage : Document :=
  { forms := [⟨10, [0]⟩, ⟨11, [1, 2]⟩],
    elem := heapOf [⟨"hidden", "querySelectorAll", "", ""⟩,
      ⟨"text", "username", "", ""⟩, ⟨"password", "pw", "", ""⟩] }

/-! Section: The vocabulary of the specification -/

/-- The three substrings the scanner looks for. -/
def keywords : List String := ["user", "email", "login"]

/-- The string `s` contains `kw` as a substring. -/
def Contains (s kw : String) : Prop := kw.data <:+: s.data

/-- The string `s` contains `kw` in some mix of upper and lower case: a
contiguous piece of `s` becomes `kw` when its letters are lowered. -/
def ContainsAnyCase (s kw : String) : Prop :=
  ∃ pre mid post : List Char, s.data = pre ++ mid ++ post ∧ mid.map Char.toLower = kw.data

/-- An input of type "password". -/
def IsPasswordInput (e : InputElement) : Prop := e.type = "password"

/-- A qualifying username input: type text, email or tel, and the lower-cased
name or id contains "user", "email" or "login". -/
def IsUsernameInput (e : InputElement) : Prop :=
  (e.type = "text" ∨ e.type = "email" ∨ e.type = "tel") ∧
  ∃ kw ∈ keywords, Contains (toLowerCase e.name) kw ∨ Contains (toLowerCase e.id) kw

/-- A qualifying username input, with the containment read on the attributes
as written: name or id contains a keyword in any mix of case. -/
def IsUsernameInputAnyCase (e : InputElement) : Prop :=
  (e.type = "text" ∨ e.type = "email" ∨ e.type = "tel") ∧
  ∃ kw ∈ keywords, ContainsAnyCase e.name kw ∨ ContainsAnyCase e.id kw

/-- The input `x` is the last one of `l`, in document order, that satisfies `P`. -/
def IsLastWhere (P : Ref → Prop) (l : List Ref) (x : Ref) : Prop :=
  ∃ pre post : List Ref, l = pre ++ x :: post ∧ P x ∧ ∀ r ∈ post, ¬ P r

/-- A loop that keeps the latest element satisfying `P`, starting from `init`. -/
def lastHit (P : Ref → Prop) [DecidablePred P] (init : Option Ref) (l : List Ref) : Option Ref :=
  l.foldl (fun acc r => if P r then some r else acc) init

/-- The type, name and id of an input: what the scanner reads of it. -/
def attributesOf (e : InputElement) : String × String × String := (e.type, e.name, e.id)

/-- Two heaps give every element the same type, name and id. -/
def SameAttributes (e₁ e₂ : Ref → InputElement) : Prop :=
  ∀ r, (e₁ r).type = (e₂ r).type ∧ (e₁ r).name = (e₂ r).name ∧ (e₁ r).id = (e₂ r).id

/-- The input is exposed by its form as the property `property`: it is no
image button and its name or id is `property`. -/
def IsExposedAs (e : InputElement) (property : String) : Prop :=
  e.type ≠ "image" ∧ (e.name = property ∨ e.id = property)

/-- The callback of line 30 throws on this form: its scan throws, or its scan
returns a pair and the form exposes a control as `addEventListener`. -/
def callbackThrows (elem : Ref → InputElement) (form : Form) : Bool :=
  match findUsernameAndPasswordFields elem form with
  | .thrown => true
  | .normal (some _) => exposesControl elem form "addEventListener"
  | .normal none => false

/-- The string holds no line break. -/
def HasNoLineBreak (s : String) : Prop := ∀ c ∈ s.data, isNewline c = false

/-- The string neither starts nor ends with ASCII whitespace. -/
def IsTrimmed (s : String) : Prop :=
  s.data.head?.any isAsciiWhitespace = false ∧ s.data.getLast?.any isAsciiWhitespace = false

/-- The string is one that an input of the given type stores as it is: it
holds no line break and, for an email input, is trimmed. -/
def StoredAsIs (type : String) (s : String) : Prop :=
  HasNoLineBreak s ∧ (type = "email" → IsTrimmed s)

instance (e : InputElement) : Decidable (IsPasswordInput e) :=
  inferInstanceAs (Decidable (e.type = "password"))

instance (e : InputElement) : Decidable (IsUsernameInput e) := by
  unfold IsUsernameInput Contains
  infer_instance

instance (e : InputElement) (property : String) : Decidable (IsExposedAs e property) := by
  unfold IsExposedAs
  infer_instance

instance (s : String) : Decidable (HasNoLineBreak s) := by
  unfold HasNoLineBreak
  infer_instance

instance (s : String) : Decidable (IsTrimmed s) := by
  unfold IsTrimmed
  infer_instance

instance (type s : String) : Decidable (StoredAsIs type s) := by
  unfold StoredAsIs
  infer_instance

/-! Section: Strings -/

theorem startsWithChars_iff (needle s : List Char) :
    startsWithChars needle s = true ↔ needle <+: s := by
  induction needle generalizing s with
  | nil => simp [startsWithChars]
  | cons a as ih =>
    cases s with
    | nil => simp [startsWithChars]
    | cons b bs =>
      simp only [startsWithChars, Bool.and_eq_true, beq_iff_eq, ih, List.cons_prefix_cons]

theorem includesChars_iff (needle s : List Char) :
    includesChars needle s = true ↔ needle <:+: s := by
  induction s with
  | nil =>
    simp only [includesChars, startsWithChars_iff, List.prefix_nil, List.infix_nil]
  | cons c cs ih =>
    simp only [includesChars, Bool.or_eq_true, startsWithChars_iff, ih, List.infix_cons_iff]

theorem includes_iff (s kw : String) : includes s kw = true ↔ Contains s kw :=
  includesChars_iff kw.data s.data

theorem contains_toLowerCase_iff (s kw : String) :
    Contains (toLowerCase s) kw ↔ ContainsAnyCase s kw := by
  unfold Contains ContainsAnyCase toLowerCase
  constructor
  · rintro ⟨a, b, h⟩
    obtain ⟨l₁, post, hs, h₁, hpost⟩ := List.map_eq_append_iff.mp h.symm
    obtain ⟨pre, mid, hl, hpre, hmid⟩ := List.map_eq_append_iff.mp h₁
    exact ⟨pre, mid, post, by rw [hs, hl], hmid⟩
  · rintro ⟨pre, mid, post, hs, hmid⟩
    refine ⟨pre.map Char.toLower, post.map Char.toLower, ?_⟩
    simp [hs, hmid]

theorem nameOrIdMatches_iff (e : InputElement) :
    nameOrIdMatches e = true ↔
      ∃ kw ∈ keywords, Contains (toLowerCase e.name) kw ∨ Contains (toLowerCase e.id) kw := by
  simp only [nameOrIdMatches, Bool.or_eq_true, includes_iff, keywords, List.mem_cons,
    List.mem_singleton, List.not_mem_nil, or_false, exists_eq_or_imp, exists_eq_left]
  tauto

theorem isUsernameInputAnyCase_iff (e : InputElement) :
    IsUsernameInputAnyCase e ↔ IsUsernameInput e := by
  simp only [IsUsernameInputAnyCase, IsUsernameInput, contains_toLowerCase_iff]

/-! Section: The scan loop -/

theorem isLastWhere_nil (P : Ref → Prop) (x : Ref) : ¬ IsLastWhere P [] x := by
  rintro ⟨pre, post, h, -⟩
  cases pre <;> simp at h

theorem isLastWhere_cons (P : Ref → Prop) (a : Ref) (t : List Ref) (x : Ref) :
    IsLastWhere P (a :: t) x ↔ IsLastWhere P t x ∨ (a = x ∧ P x ∧ ∀ r ∈ t, ¬ P r) := by
  constructor
  · rintro ⟨pre, post, h, hx, hpost⟩
    cases pre with
    | nil =>
      simp only [List.nil_append, List.cons.injEq] at h
      obtain ⟨rfl, rfl⟩ := h
      exact Or.inr ⟨rfl, hx, hpost⟩
    | cons b pre =>
      simp only [List.cons_append, List.cons.injEq] at h
      exact Or.inl ⟨pre, post, h.2, hx, hpost⟩
  · rintro (⟨pre, post, h, hx, hpost⟩ | ⟨rfl, hx, ht⟩)
    · exact ⟨a :: pre, post, by simp [h], hx, hpost⟩
    · exact ⟨[], t, rfl, hx, ht⟩

theorem IsLastWhere.mem {P : Ref → Prop} {l : List Ref} {x : Ref} (h : IsLastWhere P l x) :
    x ∈ l := by
  obtain ⟨pre, post, rfl, -⟩ := h
  simp

theorem IsLastWhere.holds {P : Ref → Prop} {l : List Ref} {x : Ref} (h : IsLastWhere P l x) :
    P x := by
  obtain ⟨pre, post, -, hx, -⟩ := h
  exact hx

theorem lastHit_eq_some_iff (P : Ref → Prop) [DecidablePred P] (init : Option Ref)
    (l : List Ref) (x : Ref) :
    lastHit P init l = some x ↔ IsLastWhere P l x ∨ (init = some x ∧ ∀ r ∈ l, ¬ P r) := by
  induction l generalizing init with
  | nil => simp [lastHit, isLastWhere_nil]
  | cons a t ih =>
    have hstep : lastHit P init (a :: t) = lastHit P (if P a then some a else init) t := rfl
    rw [hstep, ih, isLastWhere_cons]
    by_cases ha : P a
    · simp only [ha, if_true, Option.some.injEq, List.mem_cons, forall_eq_or_imp, not_true_eq_false,
        false_and, and_false, or_false]
      constructor
      · rintro (h | ⟨rfl, h⟩)
        · exact Or.inl h
        · exact Or.inr ⟨rfl, ha, h⟩
      · rintro (h | ⟨rfl, -, h⟩)
        · exact Or.inl h
        · exact Or.inr ⟨rfl, h⟩
    · simp only [ha, if_false, List.mem_cons, forall_eq_or_imp, not_false_eq_true, true_and]
      constructor
      · rintro (h | h)
        · exact Or.inl (Or.inl h)
        · exact Or.inr h
      · rintro ((h | ⟨rfl, hx, -⟩) | h)
        · exact Or.inl h
        · exact absurd hx ha
        · exact Or.inr h

theorem lastHit_none_eq_some_iff (P : Ref → Prop) [DecidablePred P] (l : List Ref) (x : Ref) :
    lastHit P none l = some x ↔ IsLastWhere P l x := by
  simp [lastHit_eq_some_iff]

theorem lastHit_none_eq_none_iff (P : Ref → Prop) [DecidablePred P] (l : List Ref) :
    lastHit P none l = none ↔ ∀ r ∈ l, ¬ P r := by
  induction l using List.reverseRecOn with
  | nil => simp [lastHit]
  | append_singleton t a ih =>
    have hstep : lastHit P none (t ++ [a]) = if P a then some a else lastHit P none t := by
      simp [lastHit, List.foldl_append]
    rw [hstep]
    by_cases ha : P a
    · simp only [ha, if_true, List.mem_append, List.mem_singleton, false_iff, not_forall]
      simp only [reduceCtorEq, false_iff, not_forall]
      exact ⟨a, Or.inr rfl, fun h => h ha⟩
    · simp only [ha, if_false, ih, List.mem_append, List.mem_singleton]
      constructor
      · rintro h r (hr | rfl)
        · exact h r hr
        · exact ha
      · exact fun h r hr => h r (Or.inl hr)

theorem scan_passwordField (elem : Ref → InputElement) (st : ScanState) (l : List Ref) :
    (l.foldl (scanStep elem) st).passwordField =
      lastHit (fun r => IsPasswordInput (elem r)) st.passwordField l := by
  induction l generalizing st with
  | nil => rfl
  | cons a t ih =>
    rw [List.foldl_cons, ih]
    simp only [lastHit, List.foldl_cons]
    congr 1
    unfold scanStep IsPasswordInput
    split_ifs <;> rfl

theorem isUsernameInput_not_password {e : InputElement} (h : IsUsernameInput e) :
    ¬ IsPasswordInput e := by
  intro hp
  unfold IsPasswordInput at hp
  obtain ⟨ht, -⟩ := h
  rw [hp] at ht
  revert ht
  decide

theorem scan_usernameField (elem : Ref → InputElement) (st : ScanState) (l : List Ref) :
    (l.foldl (scanStep elem) st).usernameField =
      lastHit (fun r => IsUsernameInput (elem r)) st.usernameField l := by
  induction l generalizing st with
  | nil => rfl
  | cons a t ih =>
    rw [List.foldl_cons, ih]
    simp only [lastHit, List.foldl_cons]
    congr 1
    by_cases hu : IsUsernameInput (elem a)
    · have hp : ¬ (elem a).type = "password" := isUsernameInput_not_password hu
      have ht : (elem a).type = "email" ∨ (elem a).type = "text" ∨ (elem a).type = "tel" := by
        have := hu.1
        tauto
      have hn : nameOrIdMatches (elem a) = true := (nameOrIdMatches_iff _).mpr hu.2
      simp [scanStep, hp, ht, hn, hu]
    · rw [if_neg hu]
      unfold scanStep
      split_ifs with h1 h2 h3
      · rfl
      · exfalso
        exact hu ⟨by tauto, (nameOrIdMatches_iff _).mp h3⟩
      · rfl
      · rfl

/-- The scan returns a pair exactly when the loop ends with both variables
set; the pair holds the last password input and the last username input. -/
theorem scanInputs_eq_some_iff (elem : Ref → InputElement) (l : List Ref) (fields : FieldPair) :
    scanInputs elem l = some fields ↔
      IsLastWhere (fun r => IsUsernameInput (elem r)) l fields.usernameField ∧
      IsLastWhere (fun r => IsPasswordInput (elem r)) l fields.passwordField := by
  unfold scanInputs
  simp only [scan_passwordField, scan_usernameField]
  rw [← lastHit_none_eq_some_iff, ← lastHit_none_eq_some_iff]
  cases fields with
  | mk u p =>
    cases h1 : lastHit (fun r => IsPasswordInput (elem r)) none l <;>
    cases h2 : lastHit (fun r => IsUsernameInput (elem r)) none l <;>
    simp [and_comm]

theorem scanInputs_eq_none_iff (elem : Ref → InputElement) (l : List Ref) :
    scanInputs elem l = none ↔
      (∀ r ∈ l, ¬ IsPasswordInput (elem r)) ∨ (∀ r ∈ l, ¬ IsUsernameInput (elem r)) := by
  unfold scanInputs
  simp only [scan_passwordField, scan_usernameField]
  rw [← lastHit_none_eq_none_iff, ← lastHit_none_eq_none_iff]
  cases h1 : lastHit (fun r => IsPasswordInput (elem r)) none l <;>
  cases h2 : lastHit (fun r => IsUsernameInput (elem r)) none l <;>
  simp

theorem isLastWhere_of_unique {P : Ref → Prop} {l : List Ref} {x : Ref}
    (hmem : x ∈ l) (hx : P x) (huniq : ∀ r ∈ l, P r → r = x) : IsLastWhere P l x := by
  classical
  cases h : lastHit P none l with
  | none => exact absurd hx ((lastHit_none_eq_none_iff P l).mp h x hmem)
  | some y =>
    have hy := (lastHit_none_eq_some_iff P l y).mp h
    have hyx : y = x := huniq y hy.mem hy.holds
    exact hyx ▸ hy

/-! Section: The call of line 7 -/

theorem exposesControl_iff (elem : Ref → InputElement) (form : Form) (property : String) :
    exposesControl elem form property = true ↔
      ∃ r ∈ form.inputs, IsExposedAs (elem r) property := by
  simp only [exposesControl, List.any_eq_true, decide_eq_true_eq, IsExposedAs]

theorem exposesControl_eq_false_iff (elem : Ref → InputElement) (form : Form)
    (property : String) :
    exposesControl elem form property = false ↔
      ∀ r ∈ form.inputs, ¬ IsExposedAs (elem r) property := by
  rw [← Bool.not_eq_true, exposesControl_iff]
  simp only [not_exists, not_and]

theorem find_eq_thrown_iff (elem : Ref → InputElement) (form : Form) :
    findUsernameAndPasswordFields elem form = .thrown ↔
      exposesControl elem form "querySelectorAll" = true := by
  unfold findUsernameAndPasswordFields
  split_ifs with h
  · simp [h]
  · simp [h]

theorem find_eq_normal_iff (elem : Ref → InputElement) (form : Form) (res : Option FieldPair) :
    findUsernameAndPasswordFields elem form = .normal res ↔
      exposesControl elem form "querySelectorAll" = false ∧ scanInputs elem form.inputs = res := by
  unfold findUsernameAndPasswordFields
  split_ifs with h
  · simp [h]
  · simp [h]

theorem find_fields_mem_ne (elem : Ref → InputElement) (form : Form) (fields : FieldPair)
    (h : findUsernameAndPasswordFields elem form = .normal (some fields)) :
    fields.usernameField ∈ form.inputs ∧ fields.passwordField ∈ form.inputs ∧
      fields.usernameField ≠ fields.passwordField := by
  obtain ⟨hu, hp⟩ := (scanInputs_eq_some_iff elem form.inputs fields).mp
    ((find_eq_normal_iff elem form _).mp h).2
  refine ⟨hu.mem, hp.mem, ?_⟩
  intro heq
  exact isUsernameInput_not_password hu.holds (heq ▸ hp.holds)

/-! Section: The scanner reads attributes only -/

theorem scanStep_congr {e₁ e₂ : Ref → InputElement} (h : SameAttributes e₁ e₂)
    (st : ScanState) (input : Ref) : scanStep e₁ st input = scanStep e₂ st input := by
  obtain ⟨ht, hn, hi⟩ := h input
  simp only [scanStep, nameOrIdMatches, ht, hn, hi]

theorem exposesControl_congr {e₁ e₂ : Ref → InputElement} (h : SameAttributes e₁ e₂)
    (form : Form) (property : String) :
    exposesControl e₁ form property = exposesControl e₂ form property := by
  unfold exposesControl
  congr 1
  funext r
  obtain ⟨ht, hn, hi⟩ := h r
  rw [ht, hn, hi]

theorem find_congr {e₁ e₂ : Ref → InputElement} (h : SameAttributes e₁ e₂) (form : Form) :
    findUsernameAndPasswordFields e₁ form = findUsernameAndPasswordFields e₂ form := by
  have hstep : scanStep e₁ = scanStep e₂ := by
    funext st input
    exact scanStep_congr h st input
  simp only [findUsernameAndPasswordFields, scanInputs, hstep, exposesControl_congr h]

theorem callbackThrows_congr {e₁ e₂ : Ref → InputElement} (h : SameAttributes e₁ e₂)
    (form : Form) : callbackThrows e₁ form = callbackThrows e₂ form := by
  simp only [callbackThrows, find_congr h, exposesControl_congr h]

theorem sameAttributes_setValue (elem : Ref → InputElement) (r : Ref) (v : String) :
    SameAttributes (setValue elem r v) elem := by
  intro x
  unfold setValue
  by_cases hx : x = r
  · subst hx
    simp
  · simp [hx]

theorem SameAttributes.trans {e₁ e₂ e₃ : Ref → InputElement} (h₁ : SameAttributes e₁ e₂)
    (h₂ : SameAttributes e₂ e₃) : SameAttributes e₁ e₃ := fun r =>
  ⟨(h₁ r).1.trans (h₂ r).1, (h₁ r).2.1.trans (h₂ r).2.1, (h₁ r).2.2.trans (h₂ r).2.2⟩

theorem SameAttributes.symm {e₁ e₂ : Ref → InputElement} (h : SameAttributes e₁ e₂) :
    SameAttributes e₂ e₁ := fun r => ⟨(h r).1.symm, (h r).2.1.symm, (h r).2.2.symm⟩

/-! Section: Value sanitization -/

theorem stripNewlines_of_hasNoLineBreak {s : String} (h : HasNoLineBreak s) :
    stripNewlines s = s := by
  unfold stripNewlines
  have hfilter : s.data.filter (fun c => !isNewline c) = s.data := by
    rw [List.filter_eq_self]
    intro c hc
    simp [h c hc]
  rw [hfilter]

theorem dropWhile_of_head (p : Char → Bool) (l : List Char) (h : l.head?.any p = false) :
    l.dropWhile p = l := by
  cases l with
  | nil => rfl
  | cons a t =>
    have ha : p a = false := by simpa using h
    simp [List.dropWhile, ha]

theorem stripWhitespace_of_isTrimmed {s : String} (h : IsTrimmed s) : stripWhitespace s = s := by
  unfold stripWhitespace
  rw [dropWhile_of_head _ _ h.1, dropWhile_of_head _ _ (by rw [List.head?_reverse]; exact h.2),
    List.reverse_reverse]

theorem sanitizeValue_of_storedAsIs {type s : String} (h : StoredAsIs type s) :
    sanitizeValue type s = s := by
  unfold sanitizeValue
  split_ifs with ht
  · rw [stripNewlines_of_hasNoLineBreak h.1, stripWhitespace_of_isTrimmed (h.2 ht)]
  · exact stripNewlines_of_hasNoLineBreak h.1

/-! Section: The autofill loop -/

theorem autofillLoop_of_none (elem : Ref → InputElement) (username password : String)
    (forms : List Form)
    (h : ∀ g ∈ forms, findUsernameAndPasswordFields elem g = .normal none) :
    autofillLoop elem username password forms = { elem := elem, thrown := false } := by
  induction forms with
  | nil => rfl
  | cons g rest ih =>
    have hg := h g (List.mem_cons_self g rest)
    simp only [autofillLoop, hg]
    exact ih (fun g' hg' => h g' (List.mem_cons_of_mem g hg'))

theorem autofillLoop_of_first (elem : Ref → InputElement) (username password : String)
    (pre : List Form) (form : Form) (post : List Form) (fields : FieldPair)
    (hpre : ∀ g ∈ pre, findUsernameAndPasswordFields elem g = .normal none)
    (hform : findUsernameAndPasswordFields elem form = .normal (some fields)) :
    autofillLoop elem username password (pre ++ form :: post) =
      { elem := setValue (setValue elem fields.usernameField username)
          fields.passwordField password,
        thrown := false } := by
  induction pre with
  | nil => simp only [List.nil_append, autofillLoop, hform]
  | cons g rest ih =>
    have hg := hpre g (List.mem_cons_self g rest)
    simp only [List.cons_append, autofillLoop, hg]
    exact ih (fun g' hg' => hpre g' (List.mem_cons_of_mem g hg'))

theorem autofillLoop_of_thrown (elem : Ref → InputElement) (username password : String)
    (pre : List Form) (form : Form) (post : List Form)
    (hpre : ∀ g ∈ pre, findUsernameAndPasswordFields elem g = .normal none)
    (hform : findUsernameAndPasswordFields elem form = .thrown) :
    autofillLoop elem username password (pre ++ form :: post) =
      { elem := elem, thrown := true } := by
  induction pre with
  | nil => simp only [List.nil_append, autofillLoop, hform]
  | cons g rest ih =>
    have hg := hpre g (List.mem_cons_self g rest)
    simp only [List.cons_append, autofillLoop, hg]
    exact ih (fun g' hg' => hpre g' (List.mem_cons_of_mem g hg'))

/-- The loop over the forms meets only `null` results, or a first form with a
pair, or a first form whose scan throws. -/
theorem first_form_cases (elem : Ref → InputElement) (forms : List Form) :
    (∀ g ∈ forms, findUsernameAndPasswordFields elem g = .normal none) ∨
    (∃ (pre : List Form) (form : Form) (post : List Form) (fields : FieldPair),
      forms = pre ++ form :: post ∧
      (∀ g ∈ pre, findUsernameAndPasswordFields elem g = .normal none) ∧
      findUsernameAndPasswordFields elem form = .normal (some fields)) ∨
    (∃ (pre : List Form) (form : Form) (post : List Form),
      forms = pre ++ form :: post ∧
      (∀ g ∈ pre, findUsernameAndPasswordFields elem g = .normal none) ∧
      findUsernameAndPasswordFields elem form = .thrown) := by
  induction forms with
  | nil => exact Or.inl (by simp)
  | cons g rest ih =>
    cases hg : findUsernameAndPasswordFields elem g with
    | thrown => exact Or.inr (Or.inr ⟨[], g, rest, rfl, by simp, hg⟩)
    | normal res =>
      cases res with
      | some fields => exact Or.inr (Or.inl ⟨[], g, rest, fields, rfl, by simp, hg⟩)
      | none =>
        have hcons : ∀ pre : List Form,
            (∀ g' ∈ pre, findUsernameAndPasswordFields elem g' = .normal none) →
            ∀ g' ∈ g :: pre, findUsernameAndPasswordFields elem g' = .normal none := by
          intro pre hpre g' hg'
          rcases List.mem_cons.mp hg' with rfl | hmem
          · exact hg
          · exact hpre g' hmem
        rcases ih with h | ⟨pre, form, post, fields, hforms, hpre, hform⟩ |
          ⟨pre, form, post, hforms, hpre, hform⟩
        · exact Or.inl (hcons rest h)
        · exact Or.inr (Or.inl ⟨g :: pre, form, post, fields, by simp [hforms],
            hcons pre hpre, hform⟩)
        · exact Or.inr (Or.inr ⟨g :: pre, form, post, by simp [hforms], hcons pre hpre, hform⟩)

/-- The first element of a list that satisfies `P` is found at one place. -/
theorem first_split_unique {α : Type} (P : α → Prop) (pre pre' : List α) (a a' : α)
    (post post' : List α) (h : pre ++ a :: post = pre' ++ a' :: post')
    (hpre : ∀ g ∈ pre, ¬ P g) (ha : P a) (hpre' : ∀ g ∈ pre', ¬ P g) (ha' : P a') :
    pre = pre' ∧ a = a' ∧ post = post' := by
  induction pre generalizing pre' with
  | nil =>
    cases pre' with
    | nil =>
      simp only [List.nil_append, List.cons.injEq] at h
      exact ⟨rfl, h.1, h.2⟩
    | cons b t =>
      simp only [List.nil_append, List.cons_append, List.cons.injEq] at h
      exact absurd (h.1 ▸ ha) (hpre' b (List.mem_cons_self b t))
  | cons c t ih =>
    cases pre' with
    | nil =>
      simp only [List.nil_append, List.cons_append, List.cons.injEq] at h
      exact absurd (h.1 ▸ ha') (hpre c (List.mem_cons_self c t))
    | cons b t' =>
      simp only [List.cons_append, List.cons.injEq] at h
      obtain ⟨h1, h2, h3⟩ := ih t' h.2 (fun g hg => hpre g (List.mem_cons_of_mem c hg))
        (fun g hg => hpre' g (List.mem_cons_of_mem b hg))
      exact ⟨by rw [h.1, h1], h2, h3⟩

theorem sameAttributes_autofillLoop (elem : Ref → InputElement) (username password : String)
    (forms : List Form) :
    SameAttributes (autofillLoop elem username password forms).elem elem := by
  rcases first_form_cases elem forms with h | ⟨pre, form, post, fields, rfl, hpre, hform⟩ |
    ⟨pre, form, post, rfl, hpre, hform⟩
  · rw [autofillLoop_of_none elem username password forms h]
    exact fun r => ⟨rfl, rfl, rfl⟩
  · rw [autofillLoop_of_first elem username password pre form post fields hpre hform]
    exact (sameAttributes_setValue _ _ _).trans (sameAttributes_setValue _ _ _)
  · rw [autofillLoop_of_thrown elem username password pre form post hpre hform]
    exact fun r => ⟨rfl, rfl, rfl⟩

theorem sameAttributes_autofill (d : Document) (username password : String) :
    SameAttributes (autofill d username password).doc.elem d.elem := by
  unfold autofill
  split_ifs
  · exact fun r => ⟨rfl, rfl, rfl⟩
  · exact sameAttributes_autofillLoop d.elem username password d.forms

theorem setValue_overwrite (elem : Ref → InputElement) (u p : Ref) (u₁ p₁ u₂ p₂ : String) :
    setValue (setValue (setValue (setValue elem u u₁) p p₁) u u₂) p p₂ =
      setValue (setValue elem u u₂) p p₂ := by
  funext x
  unfold setValue
  by_cases hup : u = p
  · subst hup
    by_cases hx : x = u <;> simp [hx]
  · have hpu : ¬ p = u := fun h => hup h.symm
    by_cases hp : x = p
    · subst hp
      simp [hpu]
    · by_cases hu : x = u
      · subst hu
        simp [hp]
      · simp [hp, hu]

theorem setValue_values (elem : Ref → InputElement) (u p : Ref) (username password : String)
    (hne : u ≠ p) :
    (setValue (setValue elem u username) p password u).value =
      sanitizeValue (elem u).type username ∧
    (setValue (setValue elem u username) p password p).value =
      sanitizeValue (elem p).type password := by
  have hpu : ¬ p = u := fun h => hne h.symm
  constructor
  · simp [setValue, hne]
  · simp [setValue, hpu]

theorem setValue_other (elem : Ref → InputElement) (u p : Ref) (username password : String)
    (r : Ref) (hu : r ≠ u) (hp : r ≠ p) :
    setValue (setValue elem u username) p password r = elem r := by
  simp [setValue, hu, hp]

/-! Section: Listener registration -/

theorem callbackThrows_eq_false_iff (elem : Ref → InputElement) (form : Form) :
    callbackThrows elem form = false ↔
      findUsernameAndPasswordFields elem form = .normal none ∨
      ∃ fields, findUsernameAndPasswordFields elem form = .normal (some fields) ∧
        exposesControl elem form "addEventListener" = false := by
  unfold callbackThrows
  cases h : findUsernameAndPasswordFields elem form with
  | thrown => simp
  | normal res =>
    cases res with
    | none => simp
    | some fields => simp

theorem attachListeners_cons_of_ok (elem : Ref → InputElement) (form : Form) (rest : List Form)
    (h : callbackThrows elem form = false) :
    attachListeners elem (form :: rest) =
      { listeners :=
          (match findUsernameAndPasswordFields elem form with
            | .normal (some fields) => [{ form := form.ref, fields := fields }]
            | _ => []) ++ (attachListeners elem rest).listeners,
        thrown := (attachListeners elem rest).thrown } := by
  rcases (callbackThrows_eq_false_iff elem form).mp h with hn | ⟨fields, hs, he⟩
  · simp only [attachListeners, hn, List.nil_append]
  · simp [attachListeners, hs, he]

theorem attachListeners_cons_of_throws (elem : Ref → InputElement) (form : Form)
    (rest : List Form) (h : callbackThrows elem form = true) :
    attachListeners elem (form :: rest) = { listeners := [], thrown := true } := by
  unfold callbackThrows at h
  cases hf : findUsernameAndPasswordFields elem form with
  | thrown => simp only [attachListeners, hf]
  | normal res =>
    rw [hf] at h
    cases res with
    | none => simp at h
    | some fields =>
      simp only at h
      simp [attachListeners, hf, h]

theorem attachListeners_thrown_eq_false_iff (elem : Ref → InputElement) (forms : List Form) :
    (attachListeners elem forms).thrown = false ↔
      ∀ g ∈ forms, callbackThrows elem g = false := by
  induction forms with
  | nil => simp [attachListeners]
  | cons g rest ih =>
    cases hg : callbackThrows elem g with
    | true =>
      rw [attachListeners_cons_of_throws elem g rest hg]
      simp [hg]
    | false =>
      rw [attachListeners_cons_of_ok elem g rest hg]
      simp [hg, ih]

theorem mem_attachListeners_iff (elem : Ref → InputElement) (forms : List Form) (l : Listener) :
    l ∈ (attachListeners elem forms).listeners ↔
      ∃ (pre : List Form) (form : Form) (post : List Form),
        forms = pre ++ form :: post ∧
        (∀ g ∈ pre, callbackThrows elem g = false) ∧
        callbackThrows elem form = false ∧
        findUsernameAndPasswordFields elem form = .normal (some l.fields) ∧
        form.ref = l.form := by
  induction forms with
  | nil => simp [attachListeners]
  | cons g rest ih =>
    cases hg : callbackThrows elem g with
    | true =>
      rw [attachListeners_cons_of_throws elem g rest hg]
      simp only [List.not_mem_nil, false_iff]
      rintro ⟨pre, form, post, hforms, hpre, hform, -⟩
      cases pre with
      | nil =>
        simp only [List.nil_append, List.cons.injEq] at hforms
        rw [← hforms.1, hg] at hform
        cases hform
      | cons a pre =>
        simp only [List.cons_append, List.cons.injEq] at hforms
        have := hpre a (List.mem_cons_self a pre)
        rw [← hforms.1, hg] at this
        cases this
    | false =>
      rw [attachListeners_cons_of_ok elem g rest hg, List.mem_append, ih]
      constructor
      · rintro (hhead | ⟨pre, form, post, hforms, hpre, hform, hfind, href⟩)
        · cases hf : findUsernameAndPasswordFields elem g with
          | thrown => simp [hf] at hhead
          | normal res =>
            cases res with
            | none => simp [hf] at hhead
            | some fields =>
              simp only [hf, List.mem_singleton] at hhead
              subst hhead
              exact ⟨[], g, rest, rfl, by simp, hg, hf, rfl⟩
        · refine ⟨g :: pre, form, post, by simp [hforms], ?_, hform, hfind, href⟩
          intro g' hg'
          rcases List.mem_cons.mp hg' with rfl | hmem
          · exact hg
          · exact hpre g' hmem
      · rintro ⟨pre, form, post, hforms, hpre, hform, hfind, href⟩
        cases pre with
        | nil =>
          simp only [List.nil_append, List.cons.injEq] at hforms
          obtain ⟨rfl, rfl⟩ := hforms
          left
          simp only [hfind, List.mem_singleton]
          cases l
          simp_all
        | cons a pre =>
          simp only [List.cons_append, List.cons.injEq] at hforms
          right
          exact ⟨pre, form, post, hforms.2, fun g' hg' => hpre g' (List.mem_cons_of_mem a hg'),
            hform, hfind, href⟩

theorem attachListeners_refs_sublist (elem : Ref → InputElement) (forms : List Form) :
    ((attachListeners elem forms).listeners.map (fun l => l.form)).Sublist
      (forms.map Form.ref) := by
  induction forms with
  | nil => simp [attachListeners]
  | cons g rest ih =>
    cases hg : callbackThrows elem g with
    | true =>
      rw [attachListeners_cons_of_throws elem g rest hg]
      simp
    | false =>
      rw [attachListeners_cons_of_ok elem g rest hg]
      cases hf : findUsernameAndPasswordFields elem g with
      | thrown => simpa using ih.cons g.ref
      | normal res =>
        cases res with
        | none => simpa using ih.cons g.ref
        | some fields => simpa using ih.cons₂ g.ref

theorem filter_form_of_nodup (ls : List Listener) (hnodup : (ls.map (fun l => l.form)).Nodup)
    (l : Listener) (hl : l ∈ ls) : ls.filter (fun x => x.form = l.form) = [l] := by
  induction ls with
  | nil => cases hl
  | cons a t ih =>
    rw [List.map_cons, List.nodup_cons] at hnodup
    obtain ⟨ha, ht⟩ := hnodup
    rcases List.mem_cons.mp hl with rfl | hmem
    · rw [List.filter_cons_of_pos (by simp)]
      congr 1
      rw [List.filter_eq_nil_iff]
      intro x hx hxl
      have hxl' : x.form = l.form := by simpa using hxl
      exact ha (hxl' ▸ List.mem_map_of_mem (fun l => l.form) hx)
    · have hne : ¬ a.form = l.form := by
        intro h
        exact ha (h ▸ List.mem_map_of_mem (fun l => l.form) hmem)
      rw [List.filter_cons_of_neg (by simpa using hne)]
      exact ih ht hmem

theorem filter_form_length_le_one (ls : List Listener)
    (hnodup : (ls.map (fun l => l.form)).Nodup) (f : Ref) :
    (ls.filter (fun x => x.form = f)).length ≤ 1 := by
  cases h : ls.filter (fun x => x.form = f) with
  | nil => simp
  | cons a t =>
    have ha : a ∈ ls.filter (fun x => x.form = f) := by
      rw [h]
      exact List.mem_cons_self a t
    obtain ⟨hmem, hform⟩ := List.mem_filter.mp ha
    have hf : a.form = f := by simpa using hform
    have := filter_form_of_nodup ls hnodup a hmem
    rw [hf, h] at this
    rw [this]
    simp

theorem captureLogic_listeners_nodup (d : Document) (hnodup : (d.forms.map Form.ref).Nodup) :
    ((captureLogic d).listeners.map (fun l => l.form)).Nodup := by
  unfold captureLogic
  split_ifs
  · simp
  · exact (attachListeners_refs_sublist d.elem d.forms).nodup hnodup

/-- The calls made when a form is submitted on which the listener `l` was
registered by the capture logic: those of `l` alone. -/
theorem dispatchSubmit_of_attached (d : Document) (hnodup : (d.forms.map Form.ref).Nodup)
    (l : Listener) (hl : l ∈ (captureLogic d).listeners) (now : Ref → InputElement) :
    dispatchSubmit (captureLogic d).listeners l.form now = (submitListener l.fields now).toList := by
  have hfilter := filter_form_of_nodup _ (captureLogic_listeners_nodup d hnodup) l hl
  simp only [dispatchSubmit, hfilter, List.filterMap_cons, List.filterMap_nil]
  cases submitListener l.fields now <;> rfl

/-! Section: The scanner (claims C1 to C5) -/

/-- C1 as stated fails: the form holds exactly one password input (1),
exactly one qualifying username input (0) and one other input that is
neither (2, hidden); the hidden input is named `querySelectorAll`, so line 7
throws and no pair is returned. -/
theorem find_single_pair_counterexample :
    IsPasswordInput (withHiddenQuery 1) ∧
    IsUsernameInputAnyCase (withHiddenQuery 0) ∧
    (∀ r ∈ [0, 1, 2], r ≠ 1 → r ≠ 0 →
      ¬ IsPasswordInput (withHiddenQuery r) ∧ ¬ IsUsernameInputAnyCase (withHiddenQuery r)) ∧
    findUsernameAndPasswordFields withHiddenQuery ⟨10, [0, 1, 2]⟩ = .thrown ∧
    findUsernameAndPasswordFields withHiddenQuery ⟨10, [0, 1, 2]⟩ ≠
      .normal (some { usernameField := 0, passwordField := 1 }) := by
  refine ⟨by decide, (isUsernameInputAnyCase_iff _).mpr (by decide), ?_, by decide, by decide⟩
  simp only [isUsernameInputAnyCase_iff]
  decide

/-- C1, amended: a form with exactly one password-type input `p`, exactly one
input `u` of type text, email or tel whose name or id contains "user",
"email" or "login" in any mix of case, otherwise only inputs that are
neither, and no input that the form exposes as `querySelectorAll`, makes
`findUsernameAndPasswordFields` return the pair made of exactly `u` and `p`. -/
theorem find_single_pair (elem : Ref → InputElement) (form : Form) (u p : Ref)
    (hp_mem : p ∈ form.inputs) (hp : IsPasswordInput (elem p))
    (hu_mem : u ∈ form.inputs) (hu : IsUsernameInputAnyCase (elem u))
    (hrest : ∀ r ∈ form.inputs, r ≠ p → r ≠ u →
      ¬ IsPasswordInput (elem r) ∧ ¬ IsUsernameInputAnyCase (elem r))
    (hquery : ∀ r ∈ form.inputs, ¬ IsExposedAs (elem r) "querySelectorAll") :
    findUsernameAndPasswordFields elem form =
      .normal (some { usernameField := u, passwordField := p }) := by
  have hu2 : IsUsernameInput (elem u) := (isUsernameInputAnyCase_iff _).mp hu
  rw [find_eq_normal_iff, exposesControl_eq_false_iff, scanInputs_eq_some_iff]
  refine ⟨hquery, ?_, ?_⟩
  · refine isLastWhere_of_unique hu_mem hu2 ?_
    intro r hr hru
    by_contra hne
    have hrp : r ≠ p := fun h => isUsernameInput_not_password hru (h ▸ hp)
    exact (hrest r hr hrp hne).2 ((isUsernameInputAnyCase_iff _).mpr hru)
  · refine isLastWhere_of_unique hp_mem hp ?_
    intro r hr hrp
    by_contra hne
    have hru : r ≠ u := fun h => isUsernameInput_not_password hu2 (h ▸ hrp)
    exact (hrest r hr hne hru).1 hrp

/-- Witness for C1, amended: a name written "UsErNaMe", and an id written
"LOGIN_box" with an empty name, among other inputs. -/
theorem find_single_pair_witness :
    findUsernameAndPasswordFields
        (heapOf [⟨"hidden", "csrf", "", "t0k"⟩, ⟨"text", "UsErNaMe", "", ""⟩,
          ⟨"text", "nickname", "nick", ""⟩, ⟨"password", "pw", "", ""⟩, ⟨"submit", "", "go", ""⟩])
        ⟨7, [0, 1, 2, 3, 4]⟩ = .normal (some { usernameField := 1, passwordField := 3 }) ∧
    findUsernameAndPasswordFields
        (heapOf [⟨"password", "secret", "", ""⟩, ⟨"checkbox", "remember", "", ""⟩,
          ⟨"tel", "", "LOGIN_box", ""⟩])
        ⟨8, [0, 1, 2]⟩ = .normal (some { usernameField := 2, passwordField := 0 }) :=
  ⟨find_single_pair _ ⟨7, [0, 1, 2, 3, 4]⟩ 1 3 (by decide) (by decide) (by decide)
      ((isUsernameInputAnyCase_iff _).mpr (by decide))
      (by simp only [isUsernameInputAnyCase_iff]; decide) (by decide),
   find_single_pair _ ⟨8, [0, 1, 2]⟩ 2 0 (by decide) (by decide) (by decide)
      ((isUsernameInputAnyCase_iff _).mpr (by decide))
      (by simp only [isUsernameInputAnyCase_iff]; decide) (by decide)⟩

/-- C2 as stated fails: the form has a password input and a qualifying
username input, yet the call returns no pair (and no `null` either): the
hidden input named `querySelectorAll` makes line 7 throw. -/
theorem find_pair_iff_counterexample :
    (∃ r ∈ [0, 1, 2], IsPasswordInput (withHiddenQuery r)) ∧
    (∃ r ∈ [0, 1, 2], IsUsernameInput (withHiddenQuery r)) ∧
    findUsernameAndPasswordFields withHiddenQuery ⟨10, [0, 1, 2]⟩ = .thrown ∧
    (¬ ∃ fields, findUsernameAndPasswordFields withHiddenQuery ⟨10, [0, 1, 2]⟩ =
      .normal (some fields)) ∧
    findUsernameAndPasswordFields withHiddenQuery ⟨10, [0, 1, 2]⟩ ≠ .normal none := by
  refine ⟨by decide, by decide, by decide, ?_, by decide⟩
  rintro ⟨fields, h⟩
  have hthrown : findUsernameAndPasswordFields withHiddenQuery ⟨10, [0, 1, 2]⟩ = .thrown := by
    decide
  rw [hthrown] at h
  cases h

/-- C2, amended: `findUsernameAndPasswordFields` throws exactly when the form
exposes an input as `querySelectorAll`. Otherwise it returns a pair if and
only if the form has at least one password-type input and at least one
qualifying username input, and returns `null` in every other case: exactly
when the form has no password-type input or has no qualifying username
input. -/
theorem find_pair_iff (elem : Ref → InputElement) (form : Form) :
    (findUsernameAndPasswordFields elem form = .thrown ↔
      ∃ r ∈ form.inputs, IsExposedAs (elem r) "querySelectorAll") ∧
    ((∃ fields, findUsernameAndPasswordFields elem form = .normal (some fields)) ↔
      (∀ r ∈ form.inputs, ¬ IsExposedAs (elem r) "querySelectorAll") ∧
      (∃ r ∈ form.inputs, IsPasswordInput (elem r)) ∧
      (∃ r ∈ form.inputs, IsUsernameInput (elem r))) ∧
    (findUsernameAndPasswordFields elem form = .normal none ↔
      (∀ r ∈ form.inputs, ¬ IsExposedAs (elem r) "querySelectorAll") ∧
      ((∀ r ∈ form.inputs, ¬ IsPasswordInput (elem r)) ∨
        (∀ r ∈ form.inputs, ¬ IsUsernameInput (elem r)))) := by
  refine ⟨?_, ?_, ?_⟩
  · rw [find_eq_thrown_iff, exposesControl_iff]
  · simp only [find_eq_normal_iff, exposesControl_eq_false_iff]
    have hnone := scanInputs_eq_none_iff elem form.inputs
    constructor
    · rintro ⟨fields, hq, hscan⟩
      refine ⟨hq, ?_⟩
      have hne : ¬ scanInputs elem form.inputs = none := by simp [hscan]
      rw [hnone, not_or] at hne
      simpa only [not_forall, not_not, exists_prop] using hne
    · rintro ⟨hq, hpw, hun⟩
      cases hscan : scanInputs elem form.inputs with
      | some fields => exact ⟨fields, hq, rfl⟩
      | none =>
        exfalso
        rcases hnone.mp hscan with h | h
        · obtain ⟨r, hr, hpr⟩ := hpw
          exact h r hr hpr
        · obtain ⟨r, hr, hur⟩ := hun
          exact h r hr hur
  · rw [find_eq_normal_iff, exposesControl_eq_false_iff, scanInputs_eq_none_iff]

/-- C3: when `findUsernameAndPasswordFields` returns a pair, its
`passwordField` is the last password-type input of the form in document
order: it is of type "password" and no input after it is. -/
theorem find_password_is_last (elem : Ref → InputElement) (form : Form) (fields : FieldPair)
    (h : findUsernameAndPasswordFields elem form = .normal (some fields)) :
    ∃ pre post : List Ref, form.inputs = pre ++ fields.passwordField :: post ∧
      IsPasswordInput (elem fields.passwordField) ∧
      ∀ r ∈ post, ¬ IsPasswordInput (elem r) :=
  ((scanInputs_eq_some_iff elem form.inputs fields).mp ((find_eq_normal_iff elem form _).mp h).2).2

/-- Witness for C3: two password inputs with the username input before,
between and after them; the later password input is returned each time. -/
theorem find_password_is_last_witness :
    (findUsernameAndPasswordFields
        (heapOf [⟨"text", "user", "", ""⟩, ⟨"password", "old", "", ""⟩, ⟨"password", "new", "", ""⟩])
        ⟨1, [0, 1, 2]⟩ = .normal (some { usernameField := 0, passwordField := 2 }) ∧
      ∃ pre post : List Ref, [0, 1, 2] = pre ++ 2 :: post ∧
        IsPasswordInput (heapOf [⟨"text", "user", "", ""⟩, ⟨"password", "old", "", ""⟩,
          ⟨"password", "new", "", ""⟩] 2) ∧
        ∀ r ∈ post, ¬ IsPasswordInput (heapOf [⟨"text", "user", "", ""⟩,
          ⟨"password", "old", "", ""⟩, ⟨"password", "new", "", ""⟩] r)) ∧
    findUsernameAndPasswordFields
        (heapOf [⟨"password", "old", "", ""⟩, ⟨"text", "user", "", ""⟩, ⟨"password", "new", "", ""⟩])
        ⟨1, [0, 1, 2]⟩ = .normal (some { usernameField := 1, passwordField := 2 }) ∧
    findUsernameAndPasswordFields
        (heapOf [⟨"password", "old", "", ""⟩, ⟨"password", "new", "", ""⟩, ⟨"text", "user", "", ""⟩])
        ⟨1, [0, 1, 2]⟩ = .normal (some { usernameField := 2, passwordField := 1 }) :=
  ⟨⟨by decide,
    find_password_is_last
      (heapOf [⟨"text", "user", "", ""⟩, ⟨"password", "old", "", ""⟩, ⟨"password", "new", "", ""⟩])
      ⟨1, [0, 1, 2]⟩ { usernameField := 0, passwordField := 2 } (by decide)⟩,
   by decide, by decide⟩

/-- C4: when `findUsernameAndPasswordFields` returns a pair, its
`usernameField` is the last qualifying username input of the form in document
order: it qualifies and no input after it does. -/
theorem find_username_is_last (elem : Ref → InputElement) (form : Form) (fields : FieldPair)
    (h : findUsernameAndPasswordFields elem form = .normal (some fields)) :
    ∃ pre post : List Ref, form.inputs = pre ++ fields.usernameField :: post ∧
      IsUsernameInput (elem fields.usernameField) ∧
      ∀ r ∈ post, ¬ IsUsernameInput (elem r) :=
  ((scanInputs_eq_some_iff elem form.inputs fields).mp ((find_eq_normal_iff elem form _).mp h).2).1

/-- Witness for C4: two qualifying inputs followed by a text input that does
not qualify; the later qualifying one is returned. -/
theorem find_username_is_last_witness :
    findUsernameAndPasswordFields
        (heapOf [⟨"text", "username", "", ""⟩, ⟨"email", "", "email", ""⟩,
          ⟨"text", "nickname", "", ""⟩, ⟨"password", "pw", "", ""⟩])
        ⟨1, [0, 1, 2, 3]⟩ = .normal (some { usernameField := 1, passwordField := 3 }) ∧
    ∃ pre post : List Ref, [0, 1, 2, 3] = pre ++ 1 :: post ∧
      IsUsernameInput (heapOf [⟨"text", "username", "", ""⟩, ⟨"email", "", "email", ""⟩,
        ⟨"text", "nickname", "", ""⟩, ⟨"password", "pw", "", ""⟩] 1) ∧
      ∀ r ∈ post, ¬ IsUsernameInput (heapOf [⟨"text", "username", "", ""⟩,
        ⟨"email", "", "email", ""⟩, ⟨"text", "nickname", "", ""⟩, ⟨"password", "pw", "", ""⟩] r) :=
  ⟨by decide,
   find_username_is_last
     (heapOf [⟨"text", "username", "", ""⟩, ⟨"email", "", "email", ""⟩,
       ⟨"text", "nickname", "", ""⟩, ⟨"password", "pw", "", ""⟩])
     ⟨1, [0, 1, 2, 3]⟩ { usernameField := 1, passwordField := 3 } (by decide)⟩

/-- C5: in a returned pair the `passwordField` is an input of the form of type
"password", the `usernameField` is an input of the form of type text, email
or tel whose lower-cased name or id contains "user", "email" or "login" as a
substring; the `usernameField` is never of type "password", and the two
fields are distinct inputs. -/
theorem find_pair_sound (elem : Ref → InputElement) (form : Form) (fields : FieldPair)
    (h : findUsernameAndPasswordFields elem form = .normal (some fields)) :
    fields.passwordField ∈ form.inputs ∧
    (elem fields.passwordField).type = "password" ∧
    fields.usernameField ∈ form.inputs ∧
    ((elem fields.usernameField).type = "text" ∨ (elem fields.usernameField).type = "email" ∨
      (elem fields.usernameField).type = "tel") ∧
    (∃ kw ∈ ["user", "email", "login"],
      Contains (toLowerCase (elem fields.usernameField).name) kw ∨
      Contains (toLowerCase (elem fields.usernameField).id) kw) ∧
    (elem fields.usernameField).type ≠ "password" ∧
    fields.usernameField ≠ fields.passwordField := by
  obtain ⟨hu, hp⟩ := (scanInputs_eq_some_iff elem form.inputs fields).mp
    ((find_eq_normal_iff elem form _).mp h).2
  have hnp := isUsernameInput_not_password hu.holds
  refine ⟨hp.mem, hp.holds, hu.mem, hu.holds.1, hu.holds.2, hnp, ?_⟩
  intro heq
  exact hnp (heq ▸ hp.holds)

/-- Witness for C5: a hidden input named "username" and a password input
named "user_password" are not taken as the username field; the text input
named "superuser_notes" is. -/
theorem find_pair_sound_witness :
    findUsernameAndPasswordFields
        (heapOf [⟨"text", "superuser_notes", "", ""⟩, ⟨"hidden", "username", "", ""⟩,
          ⟨"password", "user_password", "", ""⟩, ⟨"search", "login", "email", ""⟩])
        ⟨1, [0, 1, 2, 3]⟩ = .normal (some { usernameField := 0, passwordField := 2 }) ∧
    (0 : Ref) ≠ 2 :=
  ⟨by decide,
   (find_pair_sound
     (heapOf [⟨"text", "superuser_notes", "", ""⟩, ⟨"hidden", "username", "", ""⟩,
       ⟨"password", "user_password", "", ""⟩, ⟨"search", "login", "email", ""⟩])
     ⟨1, [0, 1, 2, 3]⟩ { usernameField := 0, passwordField := 2 } (by decide)).2.2.2.2.2.2⟩

/-! Section: Autofill (claims C6 to C8) -/

theorem autofill_of_first (d : Document) (username password : String)
    (pre : List Form) (form : Form) (post : List Form) (fields : FieldPair)
    (hdoc : documentExposes d "querySelectorAll" = false)
    (hforms : d.forms = pre ++ form :: post)
    (hpre : ∀ g ∈ pre, findUsernameAndPasswordFields d.elem g = .normal none)
    (hform : findUsernameAndPasswordFields d.elem form = .normal (some fields)) :
    (autofill d username password).thrown = false ∧
    (autofill d username password).doc.elem =
      setValue (setValue d.elem fields.usernameField username) fields.passwordField password := by
  simp only [autofill, hdoc, hforms, Bool.false_eq_true, if_false,
    autofillLoop_of_first d.elem username password pre form post fields hpre hform, and_self]

theorem autofillLoop_autofillLoop (elem : Ref → InputElement) (a b u p : String)
    (forms : List Form) :
    autofillLoop (autofillLoop elem a b forms).elem u p forms = autofillLoop elem u p forms := by
  have hfind : ∀ g, findUsernameAndPasswordFields (autofillLoop elem a b forms).elem g =
      findUsernameAndPasswordFields elem g :=
    fun g => find_congr (sameAttributes_autofillLoop elem a b forms) g
  rcases first_form_cases elem forms with h | ⟨pre, form, post, fields, hforms, hpre, hform⟩ |
    ⟨pre, form, post, hforms, hpre, hform⟩
  · rw [autofillLoop_of_none elem a b forms h]
  · have hpre2 : ∀ g ∈ pre,
        findUsernameAndPasswordFields (autofillLoop elem a b forms).elem g = .normal none :=
      fun g hg => (hfind g).trans (hpre g hg)
    have hform2 : findUsernameAndPasswordFields (autofillLoop elem a b forms).elem form =
        .normal (some fields) := (hfind form).trans hform
    have h1 : (autofillLoop elem a b forms).elem =
        setValue (setValue elem fields.usernameField a) fields.passwordField b := by
      rw [hforms, autofillLoop_of_first elem a b pre form post fields hpre hform]
    have h2 := autofillLoop_of_first (autofillLoop elem a b forms).elem u p pre form post fields
      hpre2 hform2
    rw [← hforms] at h2
    rw [h2, h1, setValue_overwrite, hforms,
      autofillLoop_of_first elem u p pre form post fields hpre hform]
  · have h1 : (autofillLoop elem a b forms).elem = elem := by
      rw [hforms, autofillLoop_of_thrown elem a b pre form post hpre hform]
    rw [h1]

theorem autofill_autofill_eq (d : Document) (a b u p : String) :
    autofill (autofill d a b).doc u p = autofill d u p := by
  by_cases hdoc : documentExposes d "querySelectorAll" = true
  · have h1 : autofill d a b = { doc := d, thrown := true } := by
      simp only [autofill, hdoc, if_true]
    rw [h1]
  · have hdoc' : documentExposes d "querySelectorAll" = false := by simpa using hdoc
    have h1 : (autofill d a b).doc =
        { d with elem := (autofillLoop d.elem a b d.forms).elem } := by
      simp only [autofill, hdoc', Bool.false_eq_true, if_false]
    have hexp : documentExposes
        { d with elem := (autofillLoop d.elem a b d.forms).elem } "querySelectorAll" = false :=
      hdoc'
    rw [h1]
    simp only [autofill, hexp, hdoc', Bool.false_eq_true, if_false, autofillLoop_autofillLoop]

/-- C6 as stated fails. On `loginPage` the call `autofill("al\nice",
"secret")` leaves "alice" in the username field: the assignment of line 50
drops the line break. On `queryThenLoginPage` form 11 is the first, and only,
form yielding a pair, but the scan of form 10 before it throws at line 7:
the call ends by a `TypeError` and the username field keeps its value. -/
theorem autofill_fills_first_counterexample :
    findUsernameAndPasswordFields loginPage.elem ⟨10, [0, 1]⟩ =
      .normal (some { usernameField := 0, passwordField := 1 }) ∧
    ((autofill loginPage "al\nice" "secret").doc.elem 0).value = "alice" ∧
    ((autofill loginPage "al\nice" "secret").doc.elem 0).value ≠ "al\nice" ∧
    findUsernameAndPasswordFields queryThenLoginPage.elem ⟨10, [0]⟩ = .thrown ∧
    findUsernameAndPasswordFields queryThenLoginPage.elem ⟨11, [1, 2]⟩ =
      .normal (some { usernameField := 1, passwordField := 2 }) ∧
    (autofill queryThenLoginPage "alice" "secret").thrown = true ∧
    ((autofill queryThenLoginPage "alice" "secret").doc.elem 1).value = "" := by
  decide

/-- C6, amended: let `window.autofill` be defined, let the document at the
call expose nothing as `querySelectorAll`, and let every form before the
first form yielding a pair scan to `null` without throwing. Then
`autofill(username, password)` returns normally, the pair's `usernameField`
holds the sanitized `username` and its `passwordField` the sanitized
`password`: the strings themselves when they hold no line break and, for an
email field, are trimmed. The forms are the same and the form still yields
that pair. The result is a function of the current document alone. -/
theorem autofill_fills_first (page : PageScript) (d : Document) (username password : String)
    (pre : List Form) (form : Form) (post : List Form) (fields : FieldPair)
    (hdef : page.autofillDefined = true)
    (hdoc : documentExposes d "querySelectorAll" = false)
    (hforms : d.forms = pre ++ form :: post)
    (hpre : ∀ g ∈ pre, findUsernameAndPasswordFields d.elem g = .normal none)
    (hform : findUsernameAndPasswordFields d.elem form = .normal (some fields)) :
    (callAutofill page d username password).thrown = false ∧
    ((callAutofill page d username password).doc.elem fields.usernameField).value =
      sanitizeValue (d.elem fields.usernameField).type username ∧
    ((callAutofill page d username password).doc.elem fields.passwordField).value =
      sanitizeValue (d.elem fields.passwordField).type password ∧
    (StoredAsIs (d.elem fields.usernameField).type username →
      ((callAutofill page d username password).doc.elem fields.usernameField).value =
        username) ∧
    (HasNoLineBreak password →
      ((callAutofill page d username password).doc.elem fields.passwordField).value =
        password) ∧
    (callAutofill page d username password).doc.forms = d.forms ∧
    findUsernameAndPasswordFields (callAutofill page d username password).doc.elem form =
      .normal (some fields) := by
  have hcall : callAutofill page d username password = autofill d username password := by
    simp only [callAutofill, hdef, if_true]
  obtain ⟨hthrown, helem⟩ :=
    autofill_of_first d username password pre form post fields hdoc hforms hpre hform
  obtain ⟨-, -, hne⟩ := find_fields_mem_ne d.elem form fields hform
  have hvals := setValue_values d.elem fields.usernameField fields.passwordField
    username password hne
  have hptype : (d.elem fields.passwordField).type = "password" :=
    ((scanInputs_eq_some_iff d.elem form.inputs fields).mp
      ((find_eq_normal_iff d.elem form _).mp hform).2).2.holds
  rw [hcall, helem]
  refine ⟨hthrown, hvals.1, hvals.2, ?_, ?_, ?_, ?_⟩
  · intro h
    rw [hvals.1, sanitizeValue_of_storedAsIs h]
  · intro h
    rw [hvals.2]
    apply sanitizeValue_of_storedAsIs
    refine ⟨h, ?_⟩
    intro hemail
    rw [hptype] at hemail
    exact absurd hemail (by decide)
  · unfold autofill
    split_ifs <;> rfl
  · rw [← hform]
    exact find_congr ((sameAttributes_setValue _ _ _).trans (sameAttributes_setValue _ _ _)) form

/-- Witness for C6, amended: the form did not qualify when the listeners were
attached (no listener was registered), it qualifies at the call and is
filled. -/
theorem autofill_fills_first_witness :
    (channelCallback pageAtLoad).listeners = [] ∧
    ((callAutofill (channelCallback pageAtLoad) pageLater "alice" "secret").doc.elem 0).value =
      "alice" ∧
    ((callAutofill (channelCallback pageAtLoad) pageLater "alice" "secret").doc.elem 1).value =
      "secret" :=
  have h := autofill_fills_first (channelCallback pageAtLoad) pageLater "alice" "secret" []
    ⟨10, [0, 1]⟩ [] { usernameField := 0, passwordField := 1 } (by decide) (by decide)
    (by decide) (by decide) (by decide)
  ⟨by decide, h.2.2.2.1 (by decide), h.2.2.2.2.1 (by decide)⟩

/-- C7: `autofill(username, password)` changes nothing but the value of the
two paired fields of the first qualifying form: the list of forms is the
same, every element other than the two fields is exactly as before (so every
other input of the target form, and every input of a form that does not
share it with the target form, qualifying or not), and no element changes
type, name or id. -/
theorem autofill_frame (d : Document) (username password : String)
    (pre : List Form) (form : Form) (post : List Form) (fields : FieldPair)
    (hforms : d.forms = pre ++ form :: post)
    (hpre : ∀ g ∈ pre, ∀ other,
      findUsernameAndPasswordFields d.elem g ≠ .normal (some other))
    (hform : findUsernameAndPasswordFields d.elem form = .normal (some fields)) :
    (autofill d username password).doc.forms = d.forms ∧
    (∀ r, r ≠ fields.usernameField → r ≠ fields.passwordField →
      (autofill d username password).doc.elem r = d.elem r) ∧
    (∀ r ∈ form.inputs, r ≠ fields.usernameField → r ≠ fields.passwordField →
      ((autofill d username password).doc.elem r).value = (d.elem r).value) ∧
    (∀ g ∈ d.forms, ∀ r ∈ g.inputs, r ∉ form.inputs →
      ((autofill d username password).doc.elem r).value = (d.elem r).value) ∧
    (∀ r, ((autofill d username password).doc.elem r).type = (d.elem r).type ∧
      ((autofill d username password).doc.elem r).name = (d.elem r).name ∧
      ((autofill d username password).doc.elem r).id = (d.elem r).id) := by
  obtain ⟨hu_mem, hp_mem, -⟩ := find_fields_mem_ne d.elem form fields hform
  have hformsEq : (autofill d username password).doc.forms = d.forms := by
    unfold autofill
    split_ifs <;> rfl
  have hloop : (autofillLoop d.elem username password d.forms).elem = d.elem ∨
      (autofillLoop d.elem username password d.forms).elem =
        setValue (setValue d.elem fields.usernameField username)
          fields.passwordField password := by
    rcases first_form_cases d.elem d.forms with
      h | ⟨pre', form', post', fields', hforms', hpre', hform'⟩ |
      ⟨pre', form', post', hforms', hpre', hform'⟩
    · rw [autofillLoop_of_none d.elem username password d.forms h]
      exact Or.inl rfl
    · have hsplit : pre ++ form :: post = pre' ++ form' :: post' := by rw [← hforms, hforms']
      obtain ⟨-, hf, -⟩ := first_split_unique
        (fun g => ∃ other, findUsernameAndPasswordFields d.elem g = .normal (some other))
        pre pre' form form' post post' hsplit
        (fun g hg ⟨other, ho⟩ => hpre g hg other ho) ⟨fields, hform⟩
        (fun g hg ⟨other, ho⟩ => by
          rw [hpre' g hg] at ho
          cases ho)
        ⟨fields', hform'⟩
      subst hf
      have hfields : fields' = fields := by
        rw [hform] at hform'
        cases hform'
        rfl
      subst hfields
      rw [hforms', autofillLoop_of_first d.elem username password pre' form post' fields'
        hpre' hform]
      exact Or.inr rfl
    · rw [hforms', autofillLoop_of_thrown d.elem username password pre' form' post' hpre' hform']
      exact Or.inl rfl
  have hother : ∀ r, r ≠ fields.usernameField → r ≠ fields.passwordField →
      (autofill d username password).doc.elem r = d.elem r := by
    intro r hu hp
    unfold autofill
    split_ifs
    · rfl
    · show (autofillLoop d.elem username password d.forms).elem r = d.elem r
      rcases hloop with h | h
      · rw [h]
      · rw [h]
        exact setValue_other d.elem _ _ username password r hu hp
  refine ⟨hformsEq, hother, ?_, ?_, sameAttributes_autofill d username password⟩
  · intro r _ hu hp
    rw [hother r hu hp]
  · intro g _ r _ hr
    have hu : r ≠ fields.usernameField := fun h => hr (h ▸ hu_mem)
    have hp : r ≠ fields.passwordField := fun h => hr (h ▸ hp_mem)
    rw [hother r hu hp]

/-- Witness for C7: with two qualifying forms, one call leaves both fields
of the second form as they were. -/
theorem autofill_frame_witness :
    findUsernameAndPasswordFields twoLoginForms.elem ⟨11, [2, 3]⟩ =
      .normal (some { usernameField := 2, passwordField := 3 }) ∧
    (autofill twoLoginForms "alice" "secret").doc.elem 2 = twoLoginForms.elem 2 ∧
    (autofill twoLoginForms "alice" "secret").doc.elem 3 = twoLoginForms.elem 3 :=
  have h := autofill_frame twoLoginForms "alice" "secret" [] ⟨10, [0, 1]⟩ [⟨11, [2, 3]⟩]
    { usernameField := 0, passwordField := 1 } (by decide) (fun g hg => by cases hg)
    (by decide)
  ⟨by decide, h.2.1 2 (by decide) (by decide), h.2.1 3 (by decide) (by decide)⟩

/-- C8 as stated fails: after `autofill("bob", "pw1")` and then
`autofill("al\nice", "secret")` the username field of the target form holds
"alice", not the second call's `u₂`. -/
theorem autofill_autofill_counterexample :
    findUsernameAndPasswordFields loginPage.elem ⟨10, [0, 1]⟩ =
      .normal (some { usernameField := 0, passwordField := 1 }) ∧
    ((autofill (autofill loginPage "bob" "pw1").doc "al\nice" "secret").doc.elem 0).value =
      "alice" ∧
    ((autofill (autofill loginPage "bob" "pw1").doc "al\nice" "secret").doc.elem 0).value ≠
      "al\nice" := by
  decide

/-- C8, amended: calling `autofill(u₁, p₁)` and then `autofill(u₂, p₂)` ends
as `autofill(u₂, p₂)` alone does, in the same document and with the same
normal or exceptional end. The scanner gives the same result for every form
after the first call as before it. When the second call reaches a first
qualifying form, the two fields of that form's pair end up holding the
sanitized `u₂` and `p₂`, which are `u₂` and `p₂` themselves when these hold
no line break and, for an email field, are trimmed. With the same arguments
twice, the second call changes nothing. -/
theorem autofill_autofill (d : Document) (u₁ p₁ u₂ p₂ : String) :
    autofill (autofill d u₁ p₁).doc u₂ p₂ = autofill d u₂ p₂ ∧
    (∀ form, findUsernameAndPasswordFields (autofill d u₁ p₁).doc.elem form =
      findUsernameAndPasswordFields d.elem form) ∧
    (∀ (pre : List Form) (form : Form) (post : List Form) (fields : FieldPair),
      documentExposes d "querySelectorAll" = false →
      d.forms = pre ++ form :: post →
      (∀ g ∈ pre, findUsernameAndPasswordFields d.elem g = .normal none) →
      findUsernameAndPasswordFields d.elem form = .normal (some fields) →
      ((autofill (autofill d u₁ p₁).doc u₂ p₂).doc.elem fields.usernameField).value =
        sanitizeValue (d.elem fields.usernameField).type u₂ ∧
      ((autofill (autofill d u₁ p₁).doc u₂ p₂).doc.elem fields.passwordField).value =
        sanitizeValue (d.elem fields.passwordField).type p₂ ∧
      (StoredAsIs (d.elem fields.usernameField).type u₂ →
        StoredAsIs (d.elem fields.passwordField).type p₂ →
        ((autofill (autofill d u₁ p₁).doc u₂ p₂).doc.elem fields.usernameField).value = u₂ ∧
        ((autofill (autofill d u₁ p₁).doc u₂ p₂).doc.elem fields.passwordField).value = p₂)) ∧
    autofill (autofill d u₁ p₁).doc u₁ p₁ = autofill d u₁ p₁ := by
  refine ⟨autofill_autofill_eq d u₁ p₁ u₂ p₂,
    fun form => find_congr (sameAttributes_autofill d u₁ p₁) form, ?_,
    autofill_autofill_eq d u₁ p₁ u₁ p₁⟩
  intro pre form post fields hdoc hforms hpre hform
  obtain ⟨-, -, hne⟩ := find_fields_mem_ne d.elem form fields hform
  have hvals := setValue_values d.elem fields.usernameField fields.passwordField u₂ p₂ hne
  rw [autofill_autofill_eq d u₁ p₁ u₂ p₂,
    (autofill_of_first d u₂ p₂ pre form post fields hdoc hforms hpre hform).2]
  refine ⟨hvals.1, hvals.2, ?_⟩
  intro hu hp
  rw [hvals.1, hvals.2, sanitizeValue_of_storedAsIs hu, sanitizeValue_of_storedAsIs hp]
  exact ⟨rfl, rfl⟩

/-- Witness for C8, amended: on `loginPage`, "bob" and "pw1" are overwritten
by "alice" and "secret". -/
theorem autofill_autofill_witness :
    ((autofill (autofill loginPage "bob" "pw1").doc "alice" "secret").doc.elem 0).value =
      "alice" ∧
    ((autofill (autofill loginPage "bob" "pw1").doc "alice" "secret").doc.elem 1).value =
      "secret" :=
  ((autofill_autofill loginPage "bob" "pw1" "alice" "secret").2.2.1 [] ⟨10, [0, 1]⟩ []
    { usernameField := 0, passwordField := 1 } (by decide) (by decide) (by decide)
    (by decide)).2.2 (by decide) (by decide)

/-! Section: Capture (claims C9 and C10) -/

/-- C9: for a form on which the capture logic registered an observer, one
submit event makes exactly one call `capture_credentials(username,
password)`, with the current values of the two paired fields in that order,
when both values are non-empty, and makes no call when either value is the
empty string. -/
theorem submit_capture (d : Document) (hnodup : (d.forms.map Form.ref).Nodup)
    (form : Ref) (fields : FieldPair)
    (hattached : { form := form, fields := fields } ∈ (captureLogic d).listeners)
    (now : Ref → InputElement) :
    ((now fields.usernameField).value ≠ "" ∧ (now fields.passwordField).value ≠ "" →
      dispatchSubmit (captureLogic d).listeners form now =
        [((now fields.usernameField).value, (now fields.passwordField).value)]) ∧
    ((now fields.usernameField).value = "" ∨ (now fields.passwordField).value = "" →
      dispatchSubmit (captureLogic d).listeners form now = []) := by
  have hdisp := dispatchSubmit_of_attached d hnodup _ hattached now
  simp only at hdisp
  constructor
  · intro h
    rw [hdisp]
    simp only [submitListener, if_pos h, Option.toList]
  · intro h
    have hneg : ¬ ((now fields.usernameField).value ≠ "" ∧
        (now fields.passwordField).value ≠ "") := by
      rintro ⟨h1, h2⟩
      exact h.elim h1 h2
    rw [hdisp]
    simp only [submitListener, if_neg hneg, Option.toList]

/-- Witness for C9: "alice" and "secret" give one call with these two values;
"alice" with an empty password gives no call. -/
theorem submit_capture_witness :
    dispatchSubmit (captureLogic loginPage).listeners 10 typedBoth = [("alice", "secret")] ∧
    dispatchSubmit (captureLogic loginPage).listeners 10 typedNameOnly = [] :=
  ⟨(submit_capture loginPage (by decide) 10 { usernameField := 0, passwordField := 1 }
      (by decide) typedBoth).1 (by decide),
   (submit_capture loginPage (by decide) 10 { usernameField := 0, passwordField := 1 }
      (by decide) typedNameOnly).2 (by decide)⟩

/-- C10 as stated fails: forms 10 and 11 of `listenerShadowPage` are in the
document when the capture logic runs and the scanner returns a pair for each,
yet neither carries an observer. Form 10 holds an input named
`addEventListener`, so line 33 throws on it, and the exception ends the
`forEach` before form 11 is reached. -/
theorem observers_after_load_counterexample :
    findUsernameAndPasswordFields listenerShadowPage.elem ⟨10, [0, 1, 2]⟩ =
      .normal (some { usernameField := 0, passwordField := 1 }) ∧
    findUsernameAndPasswordFields listenerShadowPage.elem ⟨11, [3, 4]⟩ =
      .normal (some { usernameField := 3, passwordField := 4 }) ∧
    observersOn (captureLogic listenerShadowPage).listeners 10 = 0 ∧
    observersOn (captureLogic listenerShadowPage).listeners 11 = 0 ∧
    (captureLogic listenerShadowPage).thrown = true := by
  decide

/-- C10, amended: after the capture logic ran, a form carries at most one
submit listener. It carries one if and only if it was then in the document,
the scanner returned a pair for it, the form did not expose a control as
`addEventListener`, and the capture logic got as far as this form: the
document exposed nothing as `querySelectorAll` and the callback threw on no
earlier form. A form that was not in the document, or for which the scanner
returned no pair, carries none, and submitting it makes no capture call
whatever the elements hold at that time. -/
theorem observers_after_load (d : Document) (hnodup : (d.forms.map Form.ref).Nodup) (f : Ref) :
    observersOn (captureLogic d).listeners f ≤ 1 ∧
    (observersOn (captureLogic d).listeners f = 1 ↔
      documentExposes d "querySelectorAll" = false ∧
      ∃ (pre : List Form) (form : Form) (post : List Form),
        d.forms = pre ++ form :: post ∧ form.ref = f ∧
        (∀ g ∈ pre, callbackThrows d.elem g = false) ∧
        (∃ fields, findUsernameAndPasswordFields d.elem form = .normal (some fields)) ∧
        exposesControl d.elem form "addEventListener" = false) ∧
    ((¬ ∃ form ∈ d.forms, form.ref = f ∧
        ∃ fields, findUsernameAndPasswordFields d.elem form = .normal (some fields)) →
      observersOn (captureLogic d).listeners f = 0 ∧
      ∀ now : Ref → InputElement, dispatchSubmit (captureLogic d).listeners f now = []) := by
  have hnd := captureLogic_listeners_nodup d hnodup
  have hmem : ∀ l ∈ (captureLogic d).listeners,
      documentExposes d "querySelectorAll" = false ∧
      ∃ (pre : List Form) (form : Form) (post : List Form),
        d.forms = pre ++ form :: post ∧
        (∀ g ∈ pre, callbackThrows d.elem g = false) ∧
        callbackThrows d.elem form = false ∧
        findUsernameAndPasswordFields d.elem form = .normal (some l.fields) ∧
        form.ref = l.form := by
    intro l hl
    by_cases hdoc : documentExposes d "querySelectorAll" = true
    · simp [captureLogic, hdoc] at hl
    · have hdoc' : documentExposes d "querySelectorAll" = false := by simpa using hdoc
      simp only [captureLogic, hdoc', Bool.false_eq_true, if_false] at hl
      exact ⟨hdoc', (mem_attachListeners_iff d.elem d.forms l).mp hl⟩
  refine ⟨filter_form_length_le_one _ hnd f, ⟨?_, ?_⟩, ?_⟩
  · intro hone
    cases hfilter : (captureLogic d).listeners.filter (fun x => x.form = f) with
    | nil => simp [observersOn, hfilter] at hone
    | cons l t =>
      have hl : l ∈ (captureLogic d).listeners.filter (fun x => x.form = f) := by
        rw [hfilter]
        exact List.mem_cons_self l t
      obtain ⟨hl_mem, hl_form⟩ := List.mem_filter.mp hl
      have hlf : l.form = f := by simpa using hl_form
      obtain ⟨hdoc, pre, form, post, hforms, hpre, hcb, hfind, href⟩ := hmem l hl_mem
      refine ⟨hdoc, pre, form, post, hforms, href.trans hlf, hpre, ⟨l.fields, hfind⟩, ?_⟩
      rcases (callbackThrows_eq_false_iff d.elem form).mp hcb with hn | ⟨fields, -, he⟩
      · rw [hfind] at hn
        cases hn
      · exact he
  · rintro ⟨hdoc, pre, form, post, hforms, rfl, hpre, ⟨fields, hfind⟩, hadd⟩
    have hcb : callbackThrows d.elem form = false :=
      (callbackThrows_eq_false_iff d.elem form).mpr (Or.inr ⟨fields, hfind, hadd⟩)
    have hl : ({ form := form.ref, fields := fields } : Listener) ∈ (captureLogic d).listeners := by
      simp only [captureLogic, hdoc, Bool.false_eq_true, if_false]
      exact (mem_attachListeners_iff d.elem d.forms _).mpr
        ⟨pre, form, post, hforms, hpre, hcb, hfind, rfl⟩
    have hfilter := filter_form_of_nodup _ hnd _ hl
    simp only at hfilter
    simp only [observersOn, hfilter, List.length_singleton]
  · intro hnot
    have hfilter : (captureLogic d).listeners.filter (fun x => x.form = f) = [] := by
      rw [List.filter_eq_nil_iff]
      intro l hl hlf
      have hlf' : l.form = f := by simpa using hlf
      obtain ⟨-, pre, form, post, hforms, -, -, hfind, href⟩ := hmem l hl
      apply hnot
      refine ⟨form, ?_, href.trans hlf', l.fields, hfind⟩
      rw [hforms]
      simp
    refine ⟨by simp only [observersOn, hfilter, List.length_nil], fun now => ?_⟩
    simp only [dispatchSubmit, hfilter, List.filterMap_nil]

/-- Witness for C10, amended: the form of `pageAtLoad` did not qualify when
the capture logic ran, and form 99 was not in the document; submitting either
later, with both fields filled, makes no call. The form of `loginPage`
carries one observer. -/
theorem observers_after_load_witness :
    observersOn (captureLogic pageAtLoad).listeners 10 = 0 ∧
    dispatchSubmit (captureLogic pageAtLoad).listeners 10 typedBoth = [] ∧
    dispatchSubmit (captureLogic pageAtLoad).listeners 99 typedBoth = [] ∧
    observersOn (captureLogic loginPage).listeners 10 = 1 :=
  ⟨((observers_after_load pageAtLoad (by decide) 10).2.2 (by
      rintro ⟨form, hmem, -, fields, hfind⟩
      have hform : form = ⟨10, [0]⟩ := by simpa [pageAtLoad] using hmem
      subst hform
      have hnone : findUsernameAndPasswordFields pageAtLoad.elem ⟨10, [0]⟩ = .normal none := by
        decide
      rw [hnone] at hfind
      cases hfind)).1,
   ((observers_after_load pageAtLoad (by decide) 10).2.2 (by
      rintro ⟨form, hmem, -, fields, hfind⟩
      have hform : form = ⟨10, [0]⟩ := by simpa [pageAtLoad] using hmem
      subst hform
      have hnone : findUsernameAndPasswordFields pageAtLoad.elem ⟨10, [0]⟩ = .normal none := by
        decide
      rw [hnone] at hfind
      cases hfind)).2 typedBoth,
   ((observers_after_load pageAtLoad (by decide) 99).2.2 (by
      rintro ⟨form, hmem, href, -⟩
      have hform : form = ⟨10, [0]⟩ := by simpa [pageAtLoad] using hmem
      subst hform
      revert href
      decide)).2 typedBoth,
   (observers_after_load loginPage (by decide) 10).2.1.mpr
     ⟨by decide, [], ⟨10, [0, 1]⟩, [], by decide, by decide, by decide,
       ⟨{ usernameField := 0, passwordField := 1 }, by decide⟩, by decide⟩⟩

/-! Section: No qualifying form, and the observer as a side channel (claims C11 to C13) -/

/-- C11 as stated fails: the only form of `queryOnlyPage` yields no pair (it
holds a single hidden input), so no form of the document yields a pair; the
input is named `querySelectorAll`, so the scan of line 48 throws and the call
of `autofill` ends by a `TypeError`. -/
theorem autofill_no_qualifying_form_counterexample :
    queryOnlyPage.forms = [⟨10, [0]⟩] ∧
    findUsernameAndPasswordFields queryOnlyPage.elem ⟨10, [0]⟩ = .thrown ∧
    scanInputs queryOnlyPage.elem [0] = none ∧
    (autofill queryOnlyPage "alice" "secret").thrown = true := by
  decide

/-- C11, amended: in a document where no form yields a pair, a document
without forms included, a call of `autofill(username, password)` leaves the
document as it was: every input keeps its value, type, name and id. The call
ends without an exception exactly when `window.autofill` was defined, the
document exposes nothing as `querySelectorAll` and no form's scan throws,
that is, every form scans to `null`. -/
theorem autofill_no_qualifying_form (page : PageScript) (d : Document)
    (username password : String)
    (hnopair : ∀ g ∈ d.forms, ∀ fields,
      findUsernameAndPasswordFields d.elem g ≠ .normal (some fields)) :
    (callAutofill page d username password).doc = d ∧
    (∀ r, (callAutofill page d username password).doc.elem r = d.elem r) ∧
    ((callAutofill page d username password).thrown = false ↔
      page.autofillDefined = true ∧ documentExposes d "querySelectorAll" = false ∧
      ∀ g ∈ d.forms, findUsernameAndPasswordFields d.elem g = .normal none) := by
  have hloop : (autofillLoop d.elem username password d.forms).elem = d.elem ∧
      ((autofillLoop d.elem username password d.forms).thrown = false ↔
        ∀ g ∈ d.forms, findUsernameAndPasswordFields d.elem g = .normal none) := by
    rcases first_form_cases d.elem d.forms with h | ⟨pre, form, post, fields, hforms, -, hform⟩ |
      ⟨pre, form, post, hforms, hpre, hform⟩
    · rw [autofillLoop_of_none d.elem username password d.forms h]
      exact ⟨rfl, fun _ => h, fun _ => rfl⟩
    · exact absurd hform (hnopair form (by rw [hforms]; simp) fields)
    · rw [hforms, autofillLoop_of_thrown d.elem username password pre form post hpre hform]
      refine ⟨rfl, ⟨fun h => ?_, fun h => ?_⟩⟩
      · cases h
      · have := h form (by simp)
        rw [hform] at this
        cases this
  have hdoc_eq : (callAutofill page d username password).doc = d := by
    unfold callAutofill autofill
    split_ifs
    · rfl
    · show ({ d with elem := (autofillLoop d.elem username password d.forms).elem } : Document) = d
      rw [hloop.1]
    · rfl
  refine ⟨hdoc_eq, fun r => by rw [hdoc_eq], ?_⟩
  unfold callAutofill autofill
  split_ifs with hdef hdoc
  · simp [hdoc]
  · have hdoc' : documentExposes d "querySelectorAll" = false := by simpa using hdoc
    simp only [hloop.2, hdef, hdoc', true_and]
  · simp [hdef]

/-- Witness for C11, amended: a page without forms, and a page whose only
form has no password input; `autofill` returns normally and changes nothing. -/
theorem autofill_no_qualifying_form_witness :
    (callAutofill (channelCallback emptyPage) emptyPage "alice" "secret").doc = emptyPage ∧
    (callAutofill (channelCallback emptyPage) emptyPage "alice" "secret").thrown = false ∧
    (callAutofill (channelCallback pageAtLoad) pageAtLoad "alice" "secret").doc = pageAtLoad ∧
    (callAutofill (channelCallback pageAtLoad) pageAtLoad "alice" "secret").thrown = false :=
  have h₁ := autofill_no_qualifying_form (channelCallback emptyPage) emptyPage "alice" "secret"
    (fun g hg => by cases hg)
  have h₂ := autofill_no_qualifying_form (channelCallback pageAtLoad) pageAtLoad "alice" "secret"
    (fun g hg fields hfind => by
      have hform : g = ⟨10, [0]⟩ := by simpa [pageAtLoad] using hg
      subst hform
      have hnone : findUsernameAndPasswordFields pageAtLoad.elem ⟨10, [0]⟩ = .normal none := by
        decide
      rw [hnone] at hfind
      cases hfind)
  ⟨h₁.1, h₁.2.2.mpr ⟨by decide, by decide, by decide⟩, h₂.1,
    h₂.2.2.mpr ⟨by decide, by decide, by decide⟩⟩

theorem foldl_listenerStep_frame (bridge : Bridge) (ls : List Listener) (ev : SubmitEvent) :
    (ls.foldl (listenerStep bridge) ev).elem = ev.elem ∧
    (ls.foldl (listenerStep bridge) ev).defaultPrevented = ev.defaultPrevented := by
  induction ls generalizing ev with
  | nil => exact ⟨rfl, rfl⟩
  | cons l rest ih =>
    rw [List.foldl_cons]
    exact ih (listenerStep bridge ev l)

theorem runSubmitListener_calls (call : String → String → Bool) (fields : FieldPair)
    (elem : Ref → InputElement) :
    (runSubmitListener (some call) fields elem).calls = (submitListener fields elem).toList := by
  unfold runSubmitListener
  cases submitListener fields elem <;> rfl

theorem foldl_listenerStep_calls (call : String → String → Bool) (ls : List Listener)
    (ev : SubmitEvent) :
    (ls.foldl (listenerStep (some call)) ev).calls =
      ev.calls ++ ls.filterMap (fun l => submitListener l.fields ev.elem) := by
  induction ls generalizing ev with
  | nil => simp
  | cons l rest ih =>
    rw [List.foldl_cons, ih]
    have hstep : (listenerStep (some call) ev l).calls =
        ev.calls ++ (submitListener l.fields ev.elem).toList := by
      simp only [listenerStep, runSubmitListener_calls]
    have helem : (listenerStep (some call) ev l).elem = ev.elem := rfl
    rw [hstep, helem, List.filterMap_cons]
    cases submitListener l.fields ev.elem <;> simp

/-- C12: the dispatch of a submit event, whatever the bridge does and whether
or not a capture call is made, ends with the event not canceled (the default
submit action goes ahead) and with every element exactly as it was before the
event; with a bridge present the calls it receives are the ones the
listeners make. -/
theorem submit_observer_passive (bridge : Bridge) (listeners : List Listener) (form : Ref)
    (elem : Ref → InputElement) :
    (dispatchSubmitEvent bridge listeners form elem).defaultPrevented = false ∧
    (dispatchSubmitEvent bridge listeners form elem).elem = elem ∧
    (∀ l : Listener, ∀ ev : SubmitEvent,
      (listenerStep bridge ev l).elem = ev.elem ∧
      (listenerStep bridge ev l).defaultPrevented = ev.defaultPrevented) ∧
    ∀ call : String → String → Bool,
      (dispatchSubmitEvent (some call) listeners form elem).calls =
        dispatchSubmit listeners form elem := by
  refine ⟨?_, ?_, fun l ev => ⟨rfl, rfl⟩, fun call => ?_⟩
  · exact (foldl_listenerStep_frame bridge _ _).2
  · exact (foldl_listenerStep_frame bridge _ _).1
  · simp only [dispatchSubmitEvent, dispatchSubmit, foldl_listenerStep_calls, List.nil_append]

/-- C13: a run of the submit listener ends in a fault if and only if both
paired values are non-empty and the bridge is missing or its call throws; the
call reaches the bridge at most once, and exactly once when both values are
non-empty and the bridge is present, failing or not; when either value is
empty the run makes no call and ends normally, bridge or no bridge. -/
theorem listener_fault_iff (bridge : Bridge) (fields : FieldPair) (elem : Ref → InputElement) :
    ((runSubmitListener bridge fields elem).fault = true ↔
      ((elem fields.usernameField).value ≠ "" ∧ (elem fields.passwordField).value ≠ "") ∧
      (bridge = none ∨ ∃ call, bridge = some call ∧
        call (elem fields.usernameField).value (elem fields.passwordField).value = false)) ∧
    (runSubmitListener bridge fields elem).calls.length ≤ 1 ∧
    (∀ call, bridge = some call →
      (elem fields.usernameField).value ≠ "" ∧ (elem fields.passwordField).value ≠ "" →
      (runSubmitListener bridge fields elem).calls =
        [((elem fields.usernameField).value, (elem fields.passwordField).value)]) ∧
    ((elem fields.usernameField).value = "" ∨ (elem fields.passwordField).value = "" →
      runSubmitListener bridge fields elem = { calls := [], fault := false }) := by
  by_cases hboth : (elem fields.usernameField).value ≠ "" ∧ (elem fields.passwordField).value ≠ ""
  · have hsub : submitListener fields elem =
        some ((elem fields.usernameField).value, (elem fields.passwordField).value) := by
      simp only [submitListener, if_pos hboth]
    have hnot : ¬ ((elem fields.usernameField).value = "" ∨
        (elem fields.passwordField).value = "") := fun h => h.elim hboth.1 hboth.2
    cases bridge with
    | none =>
      have hrun : runSubmitListener none fields elem = { calls := [], fault := true } := by
        simp only [runSubmitListener, hsub]
      rw [hrun]
      refine ⟨?_, ?_, ?_, ?_⟩
      · exact ⟨fun _ => ⟨hboth, Or.inl rfl⟩, fun _ => rfl⟩
      · exact Nat.zero_le 1
      · intro call h
        cases h
      · intro h
        exact absurd h hnot
    | some call =>
      have hrun : runSubmitListener (some call) fields elem =
          { calls := [((elem fields.usernameField).value, (elem fields.passwordField).value)],
            fault := !call (elem fields.usernameField).value (elem fields.passwordField).value } := by
        simp only [runSubmitListener, hsub]
      rw [hrun]
      refine ⟨?_, ?_, ?_, ?_⟩
      · constructor
        · intro h
          refine ⟨hboth, Or.inr ⟨call, rfl, ?_⟩⟩
          simpa using h
        · rintro ⟨-, h | ⟨call', hcall, hfalse⟩⟩
          · cases h
          · cases hcall
            simp [hfalse]
      · exact Nat.le_refl 1
      · intro _ _ _
        rfl
      · intro h
        exact absurd h hnot
  · have hsub : submitListener fields elem = none := by
      simp only [submitListener, if_neg hboth]
    have hrun : runSubmitListener bridge fields elem = { calls := [], fault := false } := by
      simp only [runSubmitListener, hsub]
    rw [hrun]
    refine ⟨?_, ?_, ?_, ?_⟩
    · constructor
      · intro h
        cases h
      · rintro ⟨h, -⟩
        exact absurd h hboth
    · exact Nat.zero_le 1
    · intro call _ h
      exact absurd h hboth
    · intro _
      rfl

/-- Witness for C13: with both values typed, a missing bridge and a throwing
bridge end the listener in a fault; with an empty password the listener ends
normally even without a bridge. -/
theorem listener_fault_iff_witness :
    (runSubmitListener none { usernameField := 0, passwordField := 1 } typedBoth).fault = true ∧
    (runSubmitListener (some (fun _ _ => false)) { usernameField := 0, passwordField := 1 }
      typedBoth).fault = true ∧
    (runSubmitListener (some (fun _ _ => false)) { usernameField := 0, passwordField := 1 }
      typedBoth).calls = [("alice", "secret")] ∧
    runSubmitListener none { usernameField := 0, passwordField := 1 } typedNameOnly =
      { calls := [], fault := false } :=
  ⟨(listener_fault_iff none { usernameField := 0, passwordField := 1 } typedBoth).1.mpr
      ⟨by decide, Or.inl rfl⟩,
   (listener_fault_iff (some (fun _ _ => false)) { usernameField := 0, passwordField := 1 }
      typedBoth).1.mpr ⟨by decide, Or.inr ⟨fun _ _ => false, rfl, rfl⟩⟩,
   (listener_fault_iff (some (fun _ _ => false)) { usernameField := 0, passwordField := 1 }
      typedBoth).2.2.1 (fun _ _ => false) rfl (by decide),
   (listener_fault_iff none { usernameField := 0, passwordField := 1 } typedNameOnly).2.2.2
      (by decide)⟩

/-! Section: The pair held by an observer (claim C14) -/

/-- C14 as stated fails: the form of `loginPage` yields the pair (0, 1) when
the capture logic runs; a second password input, 2, is appended afterwards
and a scan at submission yields the pair (0, 2). The observer reads input 1,
finds it empty and makes no call; an observer scanning again at submission
would call `capture_credentials("alice", "secret")`. -/
theorem observer_rescans_counterexample :
    findUsernameAndPasswordFields loginPage.elem ⟨10, [0, 1]⟩ =
      .normal (some { usernameField := 0, passwordField := 1 }) ∧
    findUsernameAndPasswordFields typedIntoAppended loginFormAppended =
      .normal (some { usernameField := 0, passwordField := 2 }) ∧
    dispatchSubmit (captureLogic loginPage).listeners 10 typedIntoAppended = [] ∧
    rescanningListener loginFormAppended typedIntoAppended = some ("alice", "secret") := by
  decide

/-- C14, amended: an observer keeps the pair the scanner returned when it was
attached and forwards the values these two fields have at submission. It
behaves as an observer scanning again at submission whenever that scan
returns the same pair, which is so in particular when the form has the same
inputs with the same type, name and id as at attachment (only values
changed). -/
theorem observer_keeps_attached_pair (d : Document) (hnodup : (d.forms.map Form.ref).Nodup)
    (form : Form) (fields : FieldPair)
    (hfind : findUsernameAndPasswordFields d.elem form = .normal (some fields))
    (hattached : { form := form.ref, fields := fields } ∈ (captureLogic d).listeners)
    (now : Ref → InputElement) :
    dispatchSubmit (captureLogic d).listeners form.ref now = (submitListener fields now).toList ∧
    (∀ form' : Form, findUsernameAndPasswordFields now form' = .normal (some fields) →
      dispatchSubmit (captureLogic d).listeners form.ref now =
        (rescanningListener form' now).toList) ∧
    (SameAttributes now d.elem →
      dispatchSubmit (captureLogic d).listeners form.ref now =
        (rescanningListener form now).toList) := by
  have hdisp := dispatchSubmit_of_attached d hnodup _ hattached now
  simp only at hdisp
  refine ⟨hdisp, ?_, ?_⟩
  · intro form' hscan
    rw [hdisp]
    simp only [rescanningListener, hscan]
  · intro hattr
    have hscan : findUsernameAndPasswordFields now form = .normal (some fields) :=
      (find_congr hattr form).trans hfind
    rw [hdisp]
    simp only [rescanningListener, hscan]

/-- Witness for C14, amended: on `loginPage` with only values typed in, the
observer and a scan at submission agree on one call. -/
theorem observer_keeps_attached_pair_witness :
    dispatchSubmit (captureLogic loginPage).listeners 10 typedBoth = [("alice", "secret")] ∧
    (rescanningListener ⟨10, [0, 1]⟩ typedBoth).toList = [("alice", "secret")] :=
  have h := observer_keeps_attached_pair loginPage (by decide) ⟨10, [0, 1]⟩
    { usernameField := 0, passwordField := 1 } (by decide) (by decide) typedBoth
  ⟨h.1.trans (by decide), ((h.2.1 ⟨10, [0, 1]⟩ (by decide)).symm.trans (h.1.trans (by decide)))⟩

/-! Section: What the scanner depends on (claims C15 and C16) -/

theorem scanStep_of_neither (elem : Ref → InputElement) (st : ScanState) (x : Ref)
    (hp : ¬ IsPasswordInput (elem x)) (hu : ¬ IsUsernameInput (elem x)) :
    scanStep elem st x = st := by
  unfold scanStep
  split_ifs with h1 h2 h3
  · exact absurd h1 hp
  · exact absurd ⟨by tauto, (nameOrIdMatches_iff _).mp h3⟩ hu
  · rfl
  · rfl

theorem exposesControl_insert (elem : Ref → InputElement) (ref ref' : Ref)
    (pre post : List Ref) (x : Ref) (property : String)
    (hx : ¬ IsExposedAs (elem x) property) :
    exposesControl elem ⟨ref, pre ++ x :: post⟩ property =
      exposesControl elem ⟨ref', pre ++ post⟩ property := by
  have hx' : decide ((elem x).type ≠ "image" ∧
      ((elem x).name = property ∨ (elem x).id = property)) = false := by
    simpa [IsExposedAs] using hx
  simp only [exposesControl, List.any_append, List.any_cons, hx', Bool.false_or]

/-- C15 as stated fails: input 2 of `withHiddenQuery` is neither
password-type nor a qualifying username input; the form without it yields
the pair (0, 1), and with it inserted, at the end or between the two fields,
the call throws at line 7, because the input is named `querySelectorAll`. -/
theorem find_ignores_position_counterexample :
    ¬ IsPasswordInput (withHiddenQuery 2) ∧ ¬ IsUsernameInput (withHiddenQuery 2) ∧
    findUsernameAndPasswordFields withHiddenQuery ⟨10, [0, 1]⟩ =
      .normal (some { usernameField := 0, passwordField := 1 }) ∧
    findUsernameAndPasswordFields withHiddenQuery ⟨10, [0, 1, 2]⟩ = .thrown ∧
    findUsernameAndPasswordFields withHiddenQuery ⟨10, [0, 2, 1]⟩ = .thrown := by
  decide

/-- C15, amended: the scanner takes no account of position. An input that is
neither password-type nor a qualifying username input, and that the form
does not expose as `querySelectorAll`, can be inserted into, or removed from,
any place of a form without changing the outcome: pair, `null` or exception.
In a form that exposes no input as `querySelectorAll`, a pair is returned
with the username input before the password input or after it, and any
inputs that are neither around and between them; the pair is the same. -/
theorem find_ignores_position (elem : Ref → InputElement) :
    (∀ (ref ref' : Ref) (pre post : List Ref) (x : Ref),
      ¬ IsPasswordInput (elem x) → ¬ IsUsernameInput (elem x) →
      ¬ IsExposedAs (elem x) "querySelectorAll" →
      findUsernameAndPasswordFields elem ⟨ref, pre ++ x :: post⟩ =
        findUsernameAndPasswordFields elem ⟨ref', pre ++ post⟩) ∧
    (∀ (ref : Ref) (pre mid post : List Ref) (u p : Ref),
      IsUsernameInput (elem u) → IsPasswordInput (elem p) →
      (∀ r ∈ pre ++ mid ++ post, ¬ IsPasswordInput (elem r) ∧ ¬ IsUsernameInput (elem r)) →
      (∀ r ∈ u :: p :: (pre ++ mid ++ post), ¬ IsExposedAs (elem r) "querySelectorAll") →
      findUsernameAndPasswordFields elem ⟨ref, pre ++ u :: mid ++ p :: post⟩ =
        .normal (some { usernameField := u, passwordField := p }) ∧
      findUsernameAndPasswordFields elem ⟨ref, pre ++ p :: mid ++ u :: post⟩ =
        .normal (some { usernameField := u, passwordField := p })) := by
  constructor
  · intro ref ref' pre post x hp hu hq
    simp only [findUsernameAndPasswordFields, scanInputs, List.foldl_append, List.foldl_cons,
      scanStep_of_neither elem _ x hp hu, exposesControl_insert elem ref ref' pre post x _ hq]
  · intro ref pre mid post u p hu hp hrest hquery
    have hpu : ¬ IsUsernameInput (elem p) := fun h => isUsernameInput_not_password h hp
    have hup : ¬ IsPasswordInput (elem u) := isUsernameInput_not_password hu
    have hmid : ∀ r ∈ mid, ¬ IsPasswordInput (elem r) ∧ ¬ IsUsernameInput (elem r) :=
      fun r hr => hrest r (by simp [hr])
    have hpost : ∀ r ∈ post, ¬ IsPasswordInput (elem r) ∧ ¬ IsUsernameInput (elem r) :=
      fun r hr => hrest r (by simp [hr])
    constructor
    · rw [find_eq_normal_iff, exposesControl_eq_false_iff, scanInputs_eq_some_iff]
      refine ⟨?_, ?_, ?_⟩
      · intro r hr
        apply hquery r
        simp only [List.mem_append, List.mem_cons] at hr ⊢
        tauto
      · refine ⟨pre, mid ++ p :: post, by simp, hu, ?_⟩
        intro r hr
        rcases List.mem_append.mp hr with h | h
        · exact (hmid r h).2
        · rcases List.mem_cons.mp h with rfl | h
          · exact hpu
          · exact (hpost r h).2
      · exact ⟨pre ++ u :: mid, post, by simp, hp, fun r hr => (hpost r hr).1⟩
    · rw [find_eq_normal_iff, exposesControl_eq_false_iff, scanInputs_eq_some_iff]
      refine ⟨?_, ?_, ?_⟩
      · intro r hr
        apply hquery r
        simp only [List.mem_append, List.mem_cons] at hr ⊢
        tauto
      · exact ⟨pre ++ p :: mid, post, by simp, hu, fun r hr => (hpost r hr).2⟩
      · refine ⟨pre, mid ++ u :: post, by simp, hp, ?_⟩
        intro r hr
        rcases List.mem_append.mp hr with h | h
        · exact (hmid r h).1
        · rcases List.mem_cons.mp h with rfl | h
          · exact hup
          · exact (hpost r h).1

/-- Witness for C15, amended: a hidden input removed from between the two
fields, and the two fields in both orders with two other inputs between
them. -/
theorem find_ignores_position_witness :
    findUsernameAndPasswordFields
        (heapOf [⟨"text", "username", "", ""⟩, ⟨"hidden", "csrf", "", ""⟩,
          ⟨"password", "pw", "", ""⟩, ⟨"checkbox", "remember", "", ""⟩])
        ⟨1, [0] ++ 1 :: [2]⟩ =
      findUsernameAndPasswordFields
        (heapOf [⟨"text", "username", "", ""⟩, ⟨"hidden", "csrf", "", ""⟩,
          ⟨"password", "pw", "", ""⟩, ⟨"checkbox", "remember", "", ""⟩])
        ⟨1, [0] ++ [2]⟩ ∧
    findUsernameAndPasswordFields
        (heapOf [⟨"text", "username", "", ""⟩, ⟨"hidden", "csrf", "", ""⟩,
          ⟨"password", "pw", "", ""⟩, ⟨"checkbox", "remember", "", ""⟩])
        ⟨1, [] ++ 0 :: [1, 3] ++ 2 :: []⟩ =
      .normal (some { usernameField := 0, passwordField := 2 }) ∧
    findUsernameAndPasswordFields
        (heapOf [⟨"text", "username", "", ""⟩, ⟨"hidden", "csrf", "", ""⟩,
          ⟨"password", "pw", "", ""⟩, ⟨"checkbox", "remember", "", ""⟩])
        ⟨1, [] ++ 2 :: [1, 3] ++ 0 :: []⟩ =
      .normal (some { usernameField := 0, passwordField := 2 }) :=
  ⟨(find_ignores_position _).1 1 1 [0] [2] 1 (by decide) (by decide) (by decide),
   (find_ignores_position _).2 1 [] [1, 3] [] 0 2 (by decide) (by decide) (by decide)
     (by decide)⟩

theorem isPasswordInput_congr {a b : InputElement} (h : attributesOf a = attributesOf b) :
    IsPasswordInput a ↔ IsPasswordInput b := by
  simp only [attributesOf, Prod.mk.injEq] at h
  simp only [IsPasswordInput, h.1]

theorem isUsernameInput_congr {a b : InputElement} (h : attributesOf a = attributesOf b) :
    IsUsernameInput a ↔ IsUsernameInput b := by
  simp only [attributesOf, Prod.mk.injEq] at h
  simp only [IsUsernameInput, h.1, h.2.1, h.2.2]

theorem getElem?_at_split (pre post : List Ref) (x : Ref) :
    (pre ++ x :: post)[pre.length]? = some x := by
  rw [List.getElem?_append_right (Nat.le_refl _), Nat.sub_self]
  exact List.getElem?_cons_zero

/-- The last input satisfying a property of the attributes sits at the same
position in two lists that agree on attributes position by position. -/
theorem isLastWhere_transfer (Q : InputElement → Prop) (e₁ e₂ : Ref → InputElement)
    (hQ : ∀ a b, attributesOf a = attributesOf b → (Q a ↔ Q b))
    (l₁ l₂ : List Ref)
    (hmap : l₁.map (fun r => attributesOf (e₁ r)) = l₂.map (fun r => attributesOf (e₂ r)))
    (x : Ref) (hx : IsLastWhere (fun r => Q (e₁ r)) l₁ x) :
    ∃ (y : Ref) (i : Nat),
      IsLastWhere (fun r => Q (e₂ r)) l₂ y ∧ l₁[i]? = some x ∧ l₂[i]? = some y := by
  obtain ⟨pre, post, rfl, hQx, hpost⟩ := hx
  rw [List.map_append, List.map_cons] at hmap
  obtain ⟨pre₂, rest, rfl, hpre, hrest⟩ := List.map_eq_append_iff.mp hmap.symm
  obtain ⟨y, post₂, rfl, hy, hpost₂⟩ := List.map_eq_cons_iff.mp hrest
  have hlen : pre₂.length = pre.length := by
    have := congrArg List.length hpre
    simpa using this
  refine ⟨y, pre.length, ⟨pre₂, post₂, rfl, (hQ _ _ hy).mpr hQx, ?_⟩,
    getElem?_at_split pre post x, ?_⟩
  · intro r hr hQr
    have hmem : attributesOf (e₂ r) ∈ post.map (fun r => attributesOf (e₁ r)) := by
      rw [← hpost₂]
      exact List.mem_map_of_mem (fun r => attributesOf (e₂ r)) hr
    obtain ⟨r', hr', hattr⟩ := List.mem_map.mp hmem
    exact hpost r' hr' ((hQ _ _ hattr).mpr hQr)
  · rw [← hlen]
    exact getElem?_at_split pre₂ post₂ y

theorem not_exists_transfer (Q : InputElement → Prop) (e₁ e₂ : Ref → InputElement)
    (hQ : ∀ a b, attributesOf a = attributesOf b → (Q a ↔ Q b))
    (l₁ l₂ : List Ref)
    (hmap : l₁.map (fun r => attributesOf (e₁ r)) = l₂.map (fun r => attributesOf (e₂ r)))
    (h : ∀ r ∈ l₁, ¬ Q (e₁ r)) : ∀ r ∈ l₂, ¬ Q (e₂ r) := by
  intro r hr hQr
  have hmem : attributesOf (e₂ r) ∈ l₁.map (fun r => attributesOf (e₁ r)) := by
    rw [hmap]
    exact List.mem_map_of_mem (fun r => attributesOf (e₂ r)) hr
  obtain ⟨r', hr', hattr⟩ := List.mem_map.mp hmem
  exact h r' hr' ((hQ _ _ hattr).mpr hQr)

theorem map_attributes_eq_of_positions (e₁ e₂ : Ref → InputElement) (l₁ l₂ : List Ref)
    (hlen : l₁.length = l₂.length)
    (hattr : ∀ (i : Nat) (r₁ r₂ : Ref), l₁[i]? = some r₁ → l₂[i]? = some r₂ →
      attributesOf (e₁ r₁) = attributesOf (e₂ r₂)) :
    l₁.map (fun r => attributesOf (e₁ r)) = l₂.map (fun r => attributesOf (e₂ r)) := by
  induction l₁ generalizing l₂ with
  | nil =>
    cases l₂ with
    | nil => rfl
    | cons b t => simp at hlen
  | cons a t ih =>
    cases l₂ with
    | nil => simp at hlen
    | cons b t₂ =>
      simp only [List.map_cons, List.cons.injEq]
      refine ⟨hattr 0 a b (by simp) (by simp), ih t₂ (by simpa using hlen) ?_⟩
      intro i r₁ r₂ h₁ h₂
      exact hattr (i + 1) r₁ r₂ (by simpa using h₁) (by simpa using h₂)

theorem exposesControl_eq_of_map (e₁ e₂ : Ref → InputElement) (f₁ f₂ : Form)
    (property : String)
    (hmap : f₁.inputs.map (fun r => attributesOf (e₁ r)) =
      f₂.inputs.map (fun r => attributesOf (e₂ r))) :
    exposesControl e₁ f₁ property = exposesControl e₂ f₂ property := by
  have hrewrite : ∀ (e : Ref → InputElement) (l : List Ref),
      l.any (fun r => decide ((e r).type ≠ "image" ∧
        ((e r).name = property ∨ (e r).id = property))) =
      (l.map (fun r => attributesOf (e r))).any (fun a =>
        decide (a.1 ≠ "image" ∧ (a.2.1 = property ∨ a.2.2 = property))) := by
    intro e l
    induction l with
    | nil => rfl
    | cons a t ih => simp only [List.any_cons, List.map_cons, ih, attributesOf]
  unfold exposesControl
  rw [hrewrite e₁, hrewrite e₂, hmap]

/-- C16: the scanner returns a result and nothing else (the heap is an
argument, not a result), and the result depends only on the type, name and id
of the inputs in document order. Two forms with the same number of inputs
that agree position by position on type, name and id, whatever the values,
both yield `null`, or both yield a pair, the two username fields at one
position `i` and the two password fields at one position `j`, or both make
the call of line 7 throw. -/
theorem find_depends_on_attributes (e₁ e₂ : Ref → InputElement) (f₁ f₂ : Form)
    (hlen : f₁.inputs.length = f₂.inputs.length)
    (hattr : ∀ (i : Nat) (r₁ r₂ : Ref), f₁.inputs[i]? = some r₁ → f₂.inputs[i]? = some r₂ →
      (e₁ r₁).type = (e₂ r₂).type ∧ (e₁ r₁).name = (e₂ r₂).name ∧ (e₁ r₁).id = (e₂ r₂).id) :
    (findUsernameAndPasswordFields e₁ f₁ = .normal none ∧
      findUsernameAndPasswordFields e₂ f₂ = .normal none) ∨
    (∃ (p₁ p₂ : FieldPair) (i j : Nat),
      findUsernameAndPasswordFields e₁ f₁ = .normal (some p₁) ∧
      findUsernameAndPasswordFields e₂ f₂ = .normal (some p₂) ∧
      f₁.inputs[i]? = some p₁.usernameField ∧ f₂.inputs[i]? = some p₂.usernameField ∧
      f₁.inputs[j]? = some p₁.passwordField ∧ f₂.inputs[j]? = some p₂.passwordField) ∨
    (findUsernameAndPasswordFields e₁ f₁ = .thrown ∧
      findUsernameAndPasswordFields e₂ f₂ = .thrown) := by
  have hmap : f₁.inputs.map (fun r => attributesOf (e₁ r)) =
      f₂.inputs.map (fun r => attributesOf (e₂ r)) := by
    apply map_attributes_eq_of_positions e₁ e₂ _ _ hlen
    intro i r₁ r₂ h₁ h₂
    obtain ⟨ht, hn, hi⟩ := hattr i r₁ r₂ h₁ h₂
    simp only [attributesOf, ht, hn, hi]
  have hexp := exposesControl_eq_of_map e₁ e₂ f₁ f₂ "querySelectorAll" hmap
  cases hq : exposesControl e₁ f₁ "querySelectorAll" with
  | true =>
    refine Or.inr (Or.inr ⟨(find_eq_thrown_iff e₁ f₁).mpr hq, (find_eq_thrown_iff e₂ f₂).mpr ?_⟩)
    rw [← hexp, hq]
  | false =>
    have hq₂ : exposesControl e₂ f₂ "querySelectorAll" = false := by rw [← hexp, hq]
    cases h₁ : scanInputs e₁ f₁.inputs with
    | none =>
      refine Or.inl ⟨(find_eq_normal_iff e₁ f₁ _).mpr ⟨hq, h₁⟩,
        (find_eq_normal_iff e₂ f₂ _).mpr ⟨hq₂, ?_⟩⟩
      rw [scanInputs_eq_none_iff] at h₁ ⊢
      rcases h₁ with h | h
      · exact Or.inl (not_exists_transfer IsPasswordInput e₁ e₂
          (fun _ _ => isPasswordInput_congr) _ _ hmap h)
      · exact Or.inr (not_exists_transfer IsUsernameInput e₁ e₂
          (fun _ _ => isUsernameInput_congr) _ _ hmap h)
    | some p₁ =>
      obtain ⟨hu, hp⟩ := (scanInputs_eq_some_iff e₁ f₁.inputs p₁).mp h₁
      obtain ⟨u₂, i, hu₂, hi₁, hi₂⟩ := isLastWhere_transfer IsUsernameInput e₁ e₂
        (fun _ _ => isUsernameInput_congr) _ _ hmap _ hu
      obtain ⟨q₂, j, hq₂', hj₁, hj₂⟩ := isLastWhere_transfer IsPasswordInput e₁ e₂
        (fun _ _ => isPasswordInput_congr) _ _ hmap _ hp
      refine Or.inr (Or.inl ⟨p₁, { usernameField := u₂, passwordField := q₂ }, i, j,
        (find_eq_normal_iff e₁ f₁ _).mpr ⟨hq, h₁⟩,
        (find_eq_normal_iff e₂ f₂ _).mpr ⟨hq₂, ?_⟩, hi₁, hi₂, hj₁, hj₂⟩)
      exact (scanInputs_eq_some_iff e₂ f₂.inputs _).mpr ⟨hu₂, hq₂'⟩

/-- Witness for C16: the login form before and after the user typed. -/
theorem find_depends_on_attributes_witness :
    findUsernameAndPasswordFields loginPage.elem ⟨10, [0, 1]⟩ =
      .normal (some { usernameField := 0, passwordField := 1 }) ∧
    findUsernameAndPasswordFields typedBoth ⟨10, [0, 1]⟩ =
      .normal (some { usernameField := 0, passwordField := 1 }) ∧
    ((findUsernameAndPasswordFields loginPage.elem ⟨10, [0, 1]⟩ = .normal none ∧
        findUsernameAndPasswordFields typedBoth ⟨10, [0, 1]⟩ = .normal none) ∨
      (∃ (p₁ p₂ : FieldPair) (i j : Nat),
        findUsernameAndPasswordFields loginPage.elem ⟨10, [0, 1]⟩ = .normal (some p₁) ∧
        findUsernameAndPasswordFields typedBoth ⟨10, [0, 1]⟩ = .normal (some p₂) ∧
        [0, 1][i]? = some p₁.usernameField ∧ [0, 1][i]? = some p₂.usernameField ∧
        [0, 1][j]? = some p₁.passwordField ∧ [0, 1][j]? = some p₂.passwordField) ∨
      (findUsernameAndPasswordFields loginPage.elem ⟨10, [0, 1]⟩ = .thrown ∧
        findUsernameAndPasswordFields typedBoth ⟨10, [0, 1]⟩ = .thrown)) :=
  ⟨by decide, by decide,
   find_depends_on_attributes loginPage.elem typedBoth ⟨10, [0, 1]⟩ ⟨10, [0, 1]⟩ rfl
    (fun i r₁ r₂ h₁ h₂ =>
      match i, h₁, h₂ with
      | 0, h₁, h₂ => by
        cases h₁
        cases h₂
        decide
      | 1, h₁, h₂ => by
        cases h₁
        cases h₂
        decide
      | _ + 2, h₁, _ => by cases h₁)⟩

/-! Section: Autofill, then submission (claim C17) -/

theorem captureLogic_of_defined (d : Document)
    (h : (channelCallback d).autofillDefined = true) :
    documentExposes d "querySelectorAll" = false ∧
    (captureLogic d).listeners = (attachListeners d.elem d.forms).listeners ∧
    ∀ g ∈ d.forms, callbackThrows d.elem g = false := by
  by_cases hdoc : documentExposes d "querySelectorAll" = true
  · simp [channelCallback, captureLogic, hdoc] at h
  · have hdoc' : documentExposes d "querySelectorAll" = false := by simpa using hdoc
    simp only [channelCallback, captureLogic, hdoc', Bool.false_eq_true, if_false,
      Bool.not_eq_true'] at h
    refine ⟨hdoc', ?_, (attachListeners_thrown_eq_false_iff d.elem d.forms).mp h⟩
    simp only [captureLogic, hdoc', Bool.false_eq_true, if_false]

/-- C17 as stated fails. With `u` a line break, a non-empty string, the text
input stores the empty string and the submit after `autofill(u, "secret")`
makes no call. And on `listenerShadowPage` the initialization ends by an
exception at line 33: no observer is attached and `window.autofill` is not
defined. -/
theorem autofill_then_submit_counterexample :
    "\n" ≠ "" ∧
    (callAutofill (channelCallback loginPage) loginPage "\n" "secret").thrown = false ∧
    dispatchSubmit (channelCallback loginPage).listeners 10
      (callAutofill (channelCallback loginPage) loginPage "\n" "secret").doc.elem = [] ∧
    (channelCallback listenerShadowPage).autofillDefined = false ∧
    (channelCallback listenerShadowPage).listeners = [] := by
  decide

/-- C17, amended: let the channel callback run to its end on a document, and
let the document at the time of the call have the same forms, the same
exposed names and the same type, name and id on every input. Let `u` and `p`
still be non-empty after the value sanitization of the field each is written
to. Then `autofill(u, p)` returns normally and a submit of the first
qualifying form, its two fields holding what `autofill` wrote, makes exactly
one call `capture_credentials`, with the sanitized `u` and `p`, which are `u`
and `p` themselves when they hold no line break and, for an email field, are
trimmed: the observer of that form holds the pair `autofill` wrote to. -/
theorem autofill_then_submit (d₀ d : Document) (u p : String)
    (hnodup : (d₀.forms.map Form.ref).Nodup)
    (hinit : (channelCallback d₀).autofillDefined = true)
    (hforms : d.forms = d₀.forms) (hnames : d.names = d₀.names)
    (hattr : SameAttributes d.elem d₀.elem)
    (pre : List Form) (form : Form) (post : List Form) (fields : FieldPair)
    (hsplit : d.forms = pre ++ form :: post)
    (hpre : ∀ g ∈ pre, ∀ other,
      findUsernameAndPasswordFields d.elem g ≠ .normal (some other))
    (hform : findUsernameAndPasswordFields d.elem form = .normal (some fields))
    (hu : sanitizeValue (d.elem fields.usernameField).type u ≠ "")
    (hp : sanitizeValue (d.elem fields.passwordField).type p ≠ "")
    (now : Ref → InputElement)
    (hnow_u : (now fields.usernameField).value =
      ((callAutofill (channelCallback d₀) d u p).doc.elem fields.usernameField).value)
    (hnow_p : (now fields.passwordField).value =
      ((callAutofill (channelCallback d₀) d u p).doc.elem fields.passwordField).value) :
    (callAutofill (channelCallback d₀) d u p).thrown = false ∧
    dispatchSubmit (channelCallback d₀).listeners form.ref
        (callAutofill (channelCallback d₀) d u p).doc.elem =
      [(sanitizeValue (d.elem fields.usernameField).type u,
        sanitizeValue (d.elem fields.passwordField).type p)] ∧
    dispatchSubmit (channelCallback d₀).listeners form.ref now =
      [(sanitizeValue (d.elem fields.usernameField).type u,
        sanitizeValue (d.elem fields.passwordField).type p)] ∧
    (StoredAsIs (d.elem fields.usernameField).type u →
      StoredAsIs (d.elem fields.passwordField).type p →
      dispatchSubmit (channelCallback d₀).listeners form.ref
        (callAutofill (channelCallback d₀) d u p).doc.elem = [(u, p)]) ∧
    (∀ l ∈ (channelCallback d₀).listeners, l.form = form.ref → l.fields = fields) := by
  obtain ⟨hdoc₀, hlisteners, hok⟩ := captureLogic_of_defined d₀ hinit
  have hdoc : documentExposes d "querySelectorAll" = false := by
    simpa only [documentExposes, hnames] using hdoc₀
  have hfind : ∀ g, findUsernameAndPasswordFields d.elem g =
      findUsernameAndPasswordFields d₀.elem g := fun g => find_congr hattr g
  have hsplit₀ : d₀.forms = pre ++ form :: post := by rw [← hforms, hsplit]
  have hmem₀ : ∀ g ∈ pre, g ∈ d₀.forms := by
    intro g hg
    rw [hsplit₀]
    simp [hg]
  have hpre' : ∀ g ∈ pre, findUsernameAndPasswordFields d.elem g = .normal none := by
    intro g hg
    rcases (callbackThrows_eq_false_iff d₀.elem g).mp (hok g (hmem₀ g hg)) with
      hn | ⟨other, hs, -⟩
    · exact (hfind g).trans hn
    · exact absurd ((hfind g).trans hs) (hpre g hg other)
  have hform₀ : findUsernameAndPasswordFields d₀.elem form = .normal (some fields) :=
    (hfind form).symm.trans hform
  have hattached : ({ form := form.ref, fields := fields } : Listener) ∈
      (captureLogic d₀).listeners := by
    rw [hlisteners]
    refine (mem_attachListeners_iff d₀.elem d₀.forms _).mpr
      ⟨pre, form, post, hsplit₀, fun g hg => hok g (hmem₀ g hg), ?_, hform₀, rfl⟩
    exact hok form (by rw [hsplit₀]; simp)
  have hcall : callAutofill (channelCallback d₀) d u p = autofill d u p := by
    simp only [callAutofill, hinit, if_true]
  obtain ⟨hthrown, helem⟩ := autofill_of_first d u p pre form post fields hdoc hsplit hpre' hform
  obtain ⟨-, -, hne⟩ := find_fields_mem_ne d.elem form fields hform
  have hvals := setValue_values d.elem fields.usernameField fields.passwordField u p hne
  rw [hcall, helem] at hnow_u hnow_p
  rw [hcall, helem]
  have hdisp : ∀ e : Ref → InputElement,
      (e fields.usernameField).value = sanitizeValue (d.elem fields.usernameField).type u →
      (e fields.passwordField).value = sanitizeValue (d.elem fields.passwordField).type p →
      dispatchSubmit (channelCallback d₀).listeners form.ref e =
        [(sanitizeValue (d.elem fields.usernameField).type u,
          sanitizeValue (d.elem fields.passwordField).type p)] := by
    intro e h1 h2
    have h := dispatchSubmit_of_attached d₀ hnodup _ hattached e
    simp only at h
    show dispatchSubmit (captureLogic d₀).listeners form.ref e = _
    rw [h]
    simp only [submitListener, h1, h2, if_pos (And.intro hu hp), Option.toList]
  refine ⟨hthrown, hdisp _ hvals.1 hvals.2,
    hdisp now (hnow_u.trans hvals.1) (hnow_p.trans hvals.2), ?_, ?_⟩
  · intro hsu hsp
    rw [hdisp _ hvals.1 hvals.2, sanitizeValue_of_storedAsIs hsu, sanitizeValue_of_storedAsIs hsp]
  · intro l hl hlf
    have hfilter := filter_form_of_nodup _ (captureLogic_listeners_nodup d₀ hnodup) _ hattached
    simp only at hfilter
    have hin : l ∈ (captureLogic d₀).listeners.filter (fun x => x.form = form.ref) :=
      List.mem_filter.mpr ⟨hl, by simpa using hlf⟩
    rw [hfilter] at hin
    rw [List.mem_singleton.mp hin]

/-- Witness for C17, amended: on `loginPage`, `autofill("alice", "secret")`
followed by a submit of the form makes the one call
`capture_credentials("alice", "secret")`. -/
theorem autofill_then_submit_witness :
    dispatchSubmit (channelCallback loginPage).listeners 10
        (callAutofill (channelCallback loginPage) loginPage "alice" "secret").doc.elem =
      [("alice", "secret")] :=
  (autofill_then_submit loginPage loginPage "alice" "secret" (by decide) (by decide) rfl rfl
    (fun _ => ⟨rfl, rfl, rfl⟩) [] ⟨10, [0, 1]⟩ []
    { usernameField := 0, passwordField := 1 } (by decide) (fun g hg => by cases hg)
    (by decide) (by decide) (by decide)
    (callAutofill (channelCallback loginPage) loginPage "alice" "secret").doc.elem rfl rfl).2.2.2.1
    (by decide) (by decide)

end PasswordManager
